import Mathlib

/-!
Communibase connector: request coalescing and cache invalidation.

A shallow embedding of `src/src/index.js` (the ES5 build `src/lib/index.js` is
the same program).  The connector object becomes the record `Connector`, every
method becomes a function from a connector state to a result and a new state.

Modelling conventions, all of them visible in the definitions below:

* JavaScript values that travel as JSON are `Value`s.  Numbers are integers
  (fractions, `NaN` and exponent printing of integers from `1e21` on are outside
  the model); strings are sequences of Unicode scalar values and `jsLength`
  counts UTF-16 code units as `String.prototype.length` does.
* A plain object used as a dictionary (`getByIdQueue`, `objectCache`, ...) is a
  `JsObj`: its own properties in insertion order.  `JsObj.jsKeys` is
  `Object.keys`: array-index keys ascending first, then the other keys in
  insertion order.  Names inherited from `Object.prototype` (`constructor`,
  `__proto__`, ...) are not modelled as keys of these dictionaries: entity types
  are document-store type names.  Where a key comes with the data (the fields of
  a reference path), `Value.builtinMember` accounts for inherited members.
* `defer()` and `.then` allocate the next promise number; a deferred and its
  promise share that number.  `Promise.reject(e)` and `Promise.resolve(v)` are
  the immediate completions `rejectedWith e` and `resolvedWith v`.
* Settling a promise is recorded in `settled` (the first settlement wins, as
  for every promise); callbacks registered with `.then` are `Reaction`s, moved
  to the job list when their promise settles and run one at a time by `runJob`.
* `process.nextTick(() => this.spoolQueue())` increments `scheduledFlushes`;
  `runNextTick` runs one such callback.
* `queue` lists the tasks pushed on the `async.queue` dispatcher and not yet
  taken by a worker, oldest first.  A task keeps the value handed to
  `JSON.stringify` as its body.  `dispatch`, `worker`, `onResponse` and
  `onFetchError` are the steps of the dispatcher.
* The id arrays built by `getIds` are array objects shared by reference (the
  id-list cache and the callers hold the same object); they live in `arrays`.
  All other data is immutable.
* `search`, `getIds` and `getAll` call each other; their first argument bounds
  the depth of the nesting and `none` means that the bound was reached.
-/

namespace Communibase

/-! ## JSON values -/

mutual
/-- JavaScript values that can appear in JSON data and call arguments. -/
inductive Value where
  | undefined
  | null
  | bool (b : Bool)
  | num (n : Int)
  | str (s : String)
  | arr (items : Values)
  | obj (props : Props)
  deriving DecidableEq
/-- Elements of an array value. -/
inductive Values where
  | nil
  | cons (head : Value) (tail : Values)
  deriving DecidableEq
/-- Own properties of an object value, in order. -/
inductive Props where
  | nil
  | cons (key : String) (value : Value) (tail : Props)
  deriving DecidableEq
end

/-- Elements of an array value as a list. -/
def Values.toList : Values → List Value
  | .nil => []
  | .cons v rest => v :: Values.toList rest

/-- Array elements from a list. -/
def Values.ofList : List Value → Values
  | [] => .nil
  | v :: rest => .cons v (Values.ofList rest)

/-- Own property of an object value; the first binding of a key counts. -/
def Props.get? : Props → String → Option Value
  | .nil, _ => none
  | .cons k v rest, key => if k = key then some v else Props.get? rest key

/-- Value of `s.length` for a string: the number of UTF-16 code units. -/
def jsLength (s : String) : Nat :=
  (s.data.map (fun c => if c.val < 0x10000 then 1 else 2)).sum

/-- Value of a string of decimal digits, read left to right from `acc`. -/
def decimalValue : List Char → Nat → Option Nat
  | [], acc => some acc
  | c :: cs, acc =>
    if c.isDigit then decimalValue cs (acc * 10 + (c.toNat - 48)) else none

/-- Array index denoted by a property key: the canonical decimal form of a
number below `2^32 - 1` (such a form has at most ten characters). -/
def arrayIndex? (k : String) : Option Nat :=
  if 10 < jsLength k then none
  else
    match k.data with
    | [] => none
    | [c] => decimalValue [c] 0
    | c :: cs =>
      if c = '0' then none
      else (decimalValue (c :: cs) 0).filter (fun n => decide (n < 4294967295))

/-- JavaScript truthiness of a value. -/
def Value.truthy : Value → Bool
  | .undefined => false
  | .null => false
  | .bool b => b
  | .num n => n != 0
  | .str s => s != ""
  | .arr _ => true
  | .obj _ => true

mutual
/-- String conversion of a value, as in a template literal or a property key. -/
def Value.toStr : Value → String
  | .undefined => "undefined"
  | .null => "null"
  | .bool b => if b then "true" else "false"
  | .num n => toString n
  | .str s => s
  | .arr items => Values.join items
  | .obj _ => "[object Object]"
/-- Conversion of array elements joined by commas (`Array.prototype.join`). -/
def Values.join : Values → String
  | .nil => ""
  | .cons v .nil => Values.elemStr v
  | .cons v rest => Values.elemStr v ++ "," ++ Values.join rest
/-- String of one array element inside a join: empty for null and undefined. -/
def Values.elemStr : Value → String
  | .undefined => ""
  | .null => ""
  | .bool b => if b then "true" else "false"
  | .num n => toString n
  | .str s => s
  | .arr items => Values.join items
  | .obj _ => "[object Object]"
end

/-- Property read `v[k]` as far as data goes.  `none` is the TypeError of
reading a property of `undefined` or `null`.  Exact for own properties of
objects, for `length` of strings and arrays and for array elements.  Members
that are not data (methods inherited from a prototype, `__proto__`, the indexed
characters of a string) are read as `undefined` here and are told apart by
`Value.builtinMember`: the connector reads fixed keys (`_id`, `fields`,
`length`, ...), none of which is such a member, except in `walkPath`, where the
key comes from the reference and `Value.builtinMember` is consulted. -/
def Value.prop? (v : Value) (k : String) : Option Value :=
  match v with
  | .undefined => none
  | .null => none
  | .obj ps => some ((ps.get? k).getD .undefined)
  | .arr items =>
    if k = "length" then some (.num items.toList.length)
    else
      match arrayIndex? k with
      | some i => some (items.toList.getD i .undefined)
      | none => some .undefined
  | .str s => if k = "length" then some (.num (jsLength s)) else some .undefined
  | _ => some .undefined

/-- Names that every object inherits from `Object.prototype`. -/
def objectPrototypeMembers : List String :=
  ["constructor", "__defineGetter__", "__defineSetter__", "hasOwnProperty",
   "__lookupGetter__", "__lookupSetter__", "isPrototypeOf", "propertyIsEnumerable",
   "toString", "valueOf", "__proto__", "toLocaleString"]

/-- Further names that an array inherits from `Array.prototype` (ECMAScript
2015, the language level of the source; later editions add members). -/
def arrayPrototypeMembers : List String :=
  ["concat", "copyWithin", "entries", "every", "fill", "filter", "find", "findIndex",
   "forEach", "indexOf", "join", "keys", "lastIndexOf", "map", "pop", "push", "reduce",
   "reduceRight", "reverse", "shift", "slice", "some", "sort", "splice", "unshift", "values"]

/-- Further names that a string inherits from `String.prototype` (ECMAScript
2015 with its annex B; later editions add members). -/
def stringPrototypeMembers : List String :=
  ["anchor", "big", "blink", "bold", "charAt", "charCodeAt", "codePointAt", "concat",
   "endsWith", "fixed", "fontcolor", "fontsize", "includes", "indexOf", "italics",
   "lastIndexOf", "link", "localeCompare", "match", "normalize", "repeat", "replace",
   "search", "slice", "small", "split", "startsWith", "strike", "sub", "substr",
   "substring", "sup", "toLocaleLowerCase", "toLocaleUpperCase", "toLowerCase",
   "toUpperCase", "trim", "trimLeft", "trimRight"]

/-- Further names that a number inherits from `Number.prototype`. -/
def numberPrototypeMembers : List String := ["toExponential", "toFixed", "toPrecision"]

/-- The property read `v[k]` finds a member that is not data and that
`Value.prop?` therefore reads as `undefined`: a method inherited from the
prototype chain (or `__proto__`), unless an own property of an object shadows
it, or an indexed character of a string.  Such a member is truthy, is not an
array and has no method `some`. -/
def Value.builtinMember : Value → String → Bool
  | .undefined, _ => false
  | .null, _ => false
  | .obj ps, k => (ps.get? k).isNone && decide (k ∈ objectPrototypeMembers)
  | .arr _, k => decide (k ∈ objectPrototypeMembers) || decide (k ∈ arrayPrototypeMembers)
  | .str s, k =>
    decide (k ∈ objectPrototypeMembers) || decide (k ∈ stringPrototypeMembers) ||
      (match arrayIndex? k with
        | some i => decide (i < jsLength s)
        | none => false)
  | .num _, k => decide (k ∈ objectPrototypeMembers) || decide (k ∈ numberPrototypeMembers)
  | .bool _, k => decide (k ∈ objectPrototypeMembers)

/-- Comparison `v > 0` after number conversion.  Strings (and arrays and
objects through their string form) are converted when they are plain decimal
digit strings; every other string compares false. -/
def Value.gtZero : Value → Bool
  | .undefined => false
  | .null => false
  | .bool b => b
  | .num n => decide (0 < n)
  | v => match decimalValue v.toStr.data 0 with
    | some n => decide (0 < n)
    | none => false

/-! ## Plain objects used as dictionaries -/

/-- Own properties of a dictionary object, in insertion order. -/
abbrev JsObj (α : Type) := List (String × α)

/-- Property read `o[k]`: `none` is `undefined`. -/
def JsObj.get {α : Type} : JsObj α → String → Option α
  | [], _ => none
  | (k, v) :: rest, key => if k = key then some v else JsObj.get rest key

/-- Assignment `o[k] = v`: an existing key keeps its place, a new key goes last. -/
def JsObj.set {α : Type} : JsObj α → String → α → JsObj α
  | [], key, val => [(key, val)]
  | (k, v) :: rest, key, val =>
    if k = key then (k, val) :: rest else (k, v) :: JsObj.set rest key val

/-- Own keys in insertion order, each once. -/
def JsObj.keys {α : Type} : JsObj α → List String
  | [] => []
  | (k, _) :: rest => k :: (JsObj.keys rest).filter (fun x => decide (x ≠ k))

/-- Keys as `Object.keys` lists them: array indices in ascending numeric order,
then the other keys in insertion order. -/
def JsObj.jsKeys {α : Type} (o : JsObj α) : List String :=
  ((JsObj.keys o).filter (fun k => (arrayIndex? k).isSome)).insertionSort
      (fun a b => (arrayIndex? a).getD 0 ≤ (arrayIndex? b).getD 0)
    ++ (JsObj.keys o).filter (fun k => (arrayIndex? k).isNone)

/-- Pieces of a character list between occurrences of a separator. -/
def splitChars (sep : Char) : List Char → List (List Char)
  | [] => [[]]
  | c :: cs =>
    if c = sep then [] :: splitChars sep cs
    else
      match splitChars sep cs with
      | [] => [[c]]
      | p :: ps => (c :: p) :: ps

/-- Split `s.split(sep)` for a one-character separator. -/
def jsSplit (s : String) (sep : Char) : List String :=
  (splitChars sep s.data).map String.mk

/-- Assignment of one own property of an object value. -/
def Props.set : Props → String → Value → Props
  | .nil, key, val => .cons key val .nil
  | .cons k v rest, key, val =>
    if k = key then .cons k val rest else .cons k v (Props.set rest key val)

/-- Copy of the properties of `src` onto `target`, in order (`Object.assign`). -/
def Props.assign (target : Props) : Props → Props
  | .nil => target
  | .cons k v rest => Props.assign (Props.set target k v) rest

/-- Index properties of array elements, from index `i` on. -/
def indexProps : List Value → Nat → Props
  | [], _ => .nil
  | v :: rest, i => .cons (toString i) v (indexProps rest (i + 1))

/-- Own enumerable properties that `Object.assign` copies from a source value:
those of an object, the elements of an array, the characters of a string
(one per Unicode scalar value), none for the other primitives. -/
def Value.ownProps : Value → Props
  | .obj ps => ps
  | .arr items => indexProps items.toList 0
  | .str s => indexProps (s.data.map (fun c => Value.str (String.mk [c]))) 0
  | _ => .nil

/-- Strict equality `a === b` between two values taken from different data:
primitives compare by value, two objects or arrays are different objects. -/
def Value.strictEq : Value → Value → Bool
  | .undefined, .undefined => true
  | .null, .null => true
  | .bool a, .bool b => a == b
  | .num a, .num b => a == b
  | .str a, .str b => a == b
  | _, _ => false

/-! ## JSON.stringify -/

/-- Lower-case hexadecimal digit. -/
def hexDigit (n : Nat) : Char :=
  if n < 10 then Char.ofNat (48 + n) else Char.ofNat (87 + n)

/-- Escape of one character inside a JSON string. -/
def jsonEscape (c : Char) : List Char :=
  if c = Char.ofNat 34 then [Char.ofNat 92, Char.ofNat 34]
  else if c = Char.ofNat 92 then [Char.ofNat 92, Char.ofNat 92]
  else if c = Char.ofNat 8 then [Char.ofNat 92, 'b']
  else if c = Char.ofNat 12 then [Char.ofNat 92, 'f']
  else if c = Char.ofNat 10 then [Char.ofNat 92, 'n']
  else if c = Char.ofNat 13 then [Char.ofNat 92, 'r']
  else if c = Char.ofNat 9 then [Char.ofNat 92, 't']
  else if c.toNat < 32 then
    [Char.ofNat 92, 'u', '0', '0', hexDigit (c.toNat / 16), hexDigit (c.toNat % 16)]
  else [c]

/-- Quoted JSON form of a string. -/
def jsonQuote (s : String) : String :=
  String.mk ([Char.ofNat 34] ++ (s.data.map jsonEscape).flatten ++ [Char.ofNat 34])

mutual
/-- Result of `JSON.stringify(v)`; `none` stands for `undefined`. -/
def Value.json? : Value → Option String
  | .undefined => none
  | .null => some "null"
  | .bool b => some (if b then "true" else "false")
  | .num n => some (toString n)
  | .str s => some (jsonQuote s)
  | .arr items => some ("[" ++ Values.json items ++ "]")
  | .obj props => some ("\x7b" ++ Props.json props true ++ "\x7d")
/-- Array elements in JSON: an undefined element is written `null`. -/
def Values.json : Values → String
  | .nil => ""
  | .cons v .nil => (Value.json? v).getD "null"
  | .cons v rest => (Value.json? v).getD "null" ++ "," ++ Values.json rest
/-- Properties in JSON: a property whose value is undefined is left out.
`first` tells that no property has been written yet. -/
def Props.json : Props → Bool → String
  | .nil, _ => ""
  | .cons k v rest, first =>
    match Value.json? v with
    | none => Props.json rest first
    | some text =>
      (if first then "" else ",") ++ jsonQuote k ++ ":" ++ text ++ Props.json rest false
end

/-! ## Errors, promise values and outcomes -/

/-- Errors used as rejection reasons.  The text of a `TypeError` raised by the
runtime is engine specific. -/
inductive JsError where
  | error (message : String)
  | typeError (message : String)
  | communibaseError (code message errors : Value)
  deriving DecidableEq

/-- String form of an error (`Error.prototype.toString`). -/
def JsError.toStr : JsError → String
  | .error m => if m = "" then "Error" else "Error: " ++ m
  | .typeError m => if m = "" then "TypeError" else "TypeError: " ++ m
  | .communibaseError _ m _ =>
    if m.toStr = "" then "CommunibaseError" else "CommunibaseError: " ++ m.toStr

/-- Constructor `new CommunibaseError(data)`; `none` is the TypeError of reading
`data.code` when `data` is null or undefined. -/
def CommunibaseError (data : Value) : Option JsError :=
  match data.prop? "code", data.prop? "message", data.prop? "errors" with
  | some code, some message, some errors =>
    some (.communibaseError (if code.truthy then code else .num 500)
      (if message.truthy then message else .str "")
      (if errors.truthy then errors else .obj .nil))
  | _, _, _ => none

/-- What a promise is fulfilled with: immutable data, or a reference to an
array object of `Connector.arrays` (the id arrays built by `getIds`, which are
shared by reference between the id-list cache and the callers). -/
inductive JsVal where
  | data (v : Value)
  | array (address : Nat)
  deriving DecidableEq

/-- Settled state of a promise. -/
inductive Outcome where
  | fulfilled (r : JsVal)
  | rejected (e : JsError)
  deriving DecidableEq

/-- Promise handed to a caller: `Promise.reject(e)`, `Promise.resolve(r)`, or
promise number `n` of the connector (a deferred or the result of `.then`). -/
inductive Completion where
  | rejectedWith (e : JsError)
  | resolvedWith (r : JsVal)
  | promise (n : Nat)
  deriving DecidableEq

/-! ## Caches -/

/-- Store `LRU(max)`: at most `max` entries, most recently used first. -/
structure LRU where
  max : Nat
  entries : List (String × JsVal)
  deriving DecidableEq

/-- Look-up without touching the recency order. -/
def LRU.peek (l : LRU) (k : String) : Option JsVal :=
  JsObj.get l.entries k

/-- Look-up `get(k)`: a hit becomes the most recent entry. -/
def LRU.get (l : LRU) (k : String) : Option JsVal × LRU :=
  match l.peek k with
  | none => (none, l)
  | some v => (some v, { l with entries := (k, v) :: l.entries.filter (fun e => decide (e.1 ≠ k)) })

/-- Store `set(k, v)`: the entry becomes the most recent one and the least
recent entries beyond `max` are dropped. -/
def LRU.set (l : LRU) (k : String) (v : JsVal) : LRU :=
  { l with entries := ((k, v) :: l.entries.filter (fun e => decide (e.1 ≠ k))).take l.max }

/-- Record `this.cache` built by `enableCache`.  A slot of
`getIdsCaches` / `aggregateCaches` is an LRU or `null` (`none`); an entry of an
object store is a promise number or `null` (`none`). -/
structure Cache where
  getIdsCaches : JsObj (Option LRU)
  aggregateCaches : JsObj (Option LRU)
  objectCache : JsObj (JsObj (Option Nat))
  deriving DecidableEq

/-- Raw read `objectCache[objectType][objectId]`: `none` undefined, `some none` null. -/
def Cache.rawEntry (c : Cache) (objectType objectId : String) : Option (Option Nat) :=
  match c.objectCache.get objectType with
  | none => none
  | some store => store.get objectId

/-- Promise held for an object, when `isAvailable(objectType, objectId)` is truthy. -/
def Cache.entry (c : Cache) (objectType objectId : String) : Option Nat :=
  (c.rawEntry objectType objectId).join

/-- Truthiness of `isAvailable(objectType, objectId)`:
`objectCache[objectType] && objectCache[objectType][objectId]`. -/
def Cache.isAvailable (c : Cache) (objectType objectId : String) : Bool :=
  (c.entry objectType objectId).isSome

/-- Assignment `objectCache[objectType][objectId] = entry` once the store exists. -/
def Cache.setEntry (c : Cache) (objectType objectId : String) (entry : Option Nat) : Cache :=
  match c.objectCache.get objectType with
  | none => c
  | some store => { c with objectCache := c.objectCache.set objectType (store.set objectId entry) }

/-- Cache write of `getById`: create the store of the type if it is undefined,
then store the promise. -/
def Cache.putObject (c : Cache) (objectType objectId : String) (p : Nat) : Cache :=
  let c1 : Cache :=
    if (c.objectCache.get objectType).isNone
    then { c with objectCache := c.objectCache.set objectType [] } else c
  c1.setEntry objectType objectId (some p)

/-- Handler of a dirty-socket message (`dirtySock.on('message', ...)`). -/
def Cache.onMessage (c : Cache) (dirtyness : String) : Cache :=
  match jsSplit dirtyness '|' with
  | [objectType, objectId] =>
    let c1 : Cache :=
      { c with
        getIdsCaches := c.getIdsCaches.set objectType none
        aggregateCaches := c.aggregateCaches.set objectType none }
    c1.setEntry objectType objectId none
  | _ => c

/-! ## Connector state -/

/-- Task pushed on the dispatcher: `{ deferred, url, options }`.  `body` is the
value given to `JSON.stringify` (absent for a request without body), `query` is
`options.query` (undefined when absent). -/
structure Task where
  deferred : Nat
  url : String
  method : String
  body : Option Value
  query : Value
  deriving DecidableEq

/-- Call `fetch(task.url, task.options)` issued by a worker: the task and the
headers the worker has put on it.  The rendering of `query` into the URL is not
modelled; the request keeps the query value. -/
structure Request where
  task : Task
  headers : List (String × Value)
  deriving DecidableEq

/-- Callbacks given to `.then`, with the variables they capture. -/
inductive Callback where
  /-- Both handlers of `spoolQueue`: fan the batched result (or its error) out. -/
  | spoolThen (deferredsById : JsObj Nat)
  /-- Callback `results => results.map(result => result._id)` of `getIds`. -/
  | getIdsMap
  /-- Callback `ids => { getIdsCaches[objectType].set(hash, ids); return ids; }`. -/
  | getIdsStore (objectType hash : String)
  /-- Callback `ids => ids.pop()` of `getId`. -/
  | getIdPop
  /-- Callback `ids => this.getByIds(objectType, ids)` of `search`. -/
  | searchGetByIds (objectType : String)
  /-- Callback `result => { aggregateCaches[objectType].set(hash, result); return result; }`. -/
  | aggregateStore (objectType hash : String)
  /-- Callback of `getByRef` that walks `ref.path`. -/
  | getByRefWalk (path : Value)
  /-- Callback of `getByIds` on the inspections of `sources`. -/
  | getByIdsCollect (sources : List Completion)
  /-- The derived promise follows the promise that a callback returned. -/
  | adopt
  deriving DecidableEq

/-- Registered callback and the promise that `.then` returned for it. -/
structure Reaction where
  callback : Callback
  derived : Nat
  deriving DecidableEq

/-- Callback waiting for all of several promises (`Promise.all` over reflected
promises). -/
structure Join where
  sources : List Completion
  reaction : Reaction
  deriving DecidableEq

/-- Connector object together with the runtime state it acts on. -/
structure Connector where
  /-- Coalescing windows `getByIdQueue[objectType][objectId] = deferred`. -/
  getByIdQueue : JsObj (JsObj Nat)
  getByIdPrimed : Bool
  key : Value
  token : Value
  serviceUrl : String
  serviceUrlIsHttps : Bool
  /-- Value of `process.env.COMMUNIBASE_API_HOST`. -/
  apiHost : Option String
  cache : Option Cache
  /-- Tasks pushed on `this.queue`, waiting for a worker, oldest first. -/
  queue : List Task
  /-- Requests whose worker has called `fetch` and not yet its callback. -/
  running : List Request
  /-- Number of worker callbacks invoked so far (slots released). -/
  workerCallbacks : Nat
  /-- Number of promises created so far; the next promise gets this number. -/
  promiseCount : Nat
  settled : List (Nat × Outcome)
  /-- Property `metadata` attached to promises by the worker. -/
  metadata : List (Nat × Value)
  reactions : List (Nat × Reaction)
  joins : List Join
  jobs : List (Reaction × Outcome)
  /-- Number of `spoolQueue` callbacks handed to `process.nextTick` and not yet run. -/
  scheduledFlushes : Nat
  /-- Array objects shared by reference; the address is the position. -/
  arrays : List (List Value)
  deriving DecidableEq

/-- Constructor `new Connector(key)`; `apiUrl` and `apiHost` are the environment
variables `COMMUNIBASE_API_URL` and `COMMUNIBASE_API_HOST`. -/
def Connector.create (key : Value) (apiUrl apiHost : Option String) : Connector :=
  let url : String :=
    match apiUrl with
    | some u => if u = "" then "https://api.communibase.nl/0.1/" else u
    | none => "https://api.communibase.nl/0.1/"
  { getByIdQueue := []
    getByIdPrimed := false
    key := key
    token := .str ""
    serviceUrl := url
    serviceUrlIsHttps := List.isPrefixOf "https".data url.data
    apiHost := apiHost
    cache := none
    queue := []
    running := []
    workerCallbacks := 0
    promiseCount := 0
    settled := []
    metadata := []
    reactions := []
    joins := []
    jobs := []
    scheduledFlushes := 0
    arrays := [] }

/-- State change of `enableCache`: a fresh `this.cache`. -/
def enableCache (s : Connector) : Connector :=
  { s with cache := some { getIdsCaches := [], aggregateCaches := [], objectCache := [] } }

/-- Handling of a dirty-socket message; the handler exists once `enableCache`
has set `this.cache`. -/
def onDirtyMessage (s : Connector) (dirtyness : String) : Connector :=
  match s.cache with
  | none => s
  | some c => { s with cache := some (c.onMessage dirtyness) }

/-! ## Promises -/

/-- First settlement recorded for a promise number. -/
def outcomeIn : List (Nat × Outcome) → Nat → Option Outcome
  | [], _ => none
  | (m, o) :: rest, n => if m = n then some o else outcomeIn rest n

/-- Settled state of promise `n`, `none` while it is pending. -/
def Connector.outcome? (s : Connector) (n : Nat) : Option Outcome :=
  outcomeIn s.settled n

/-- Settled state of a completion. -/
def Connector.outcomeOf (s : Connector) : Completion → Option Outcome
  | .rejectedWith e => some (.rejected e)
  | .resolvedWith r => some (.fulfilled r)
  | .promise n => s.outcome? n

/-- Call `defer()`: a new pending promise. -/
def defer (s : Connector) : Nat × Connector :=
  (s.promiseCount, { s with promiseCount := s.promiseCount + 1 })

/-- Call `this.queue.push(task)`. -/
def push (s : Connector) (t : Task) : Connector :=
  { s with queue := s.queue ++ [t] }

/-- All sources of a join are settled. -/
def Connector.joinReady (s : Connector) (j : Join) : Bool :=
  j.sources.all (fun c => (s.outcomeOf c).isSome)

/-- Settlement `deferred.resolve(..)` / `deferred.reject(..)` of promise `n`:
ignored when the promise is settled already; otherwise the outcome is recorded
and the callbacks waiting for it become jobs, in registration order. -/
def settle (s : Connector) (n : Nat) (o : Outcome) : Connector :=
  if (s.outcome? n).isSome then s
  else
    let s1 : Connector :=
      { s with
        settled := s.settled ++ [(n, o)]
        reactions := s.reactions.filter (fun r => decide (r.1 ≠ n))
        jobs := s.jobs ++ (s.reactions.filter (fun r => decide (r.1 = n))).map (fun r => (r.2, o)) }
    { s1 with
      joins := s1.joins.filter (fun j => !s1.joinReady j)
      jobs := s1.jobs ++ (s1.joins.filter (fun j => s1.joinReady j)).map
        (fun j => (j.reaction, Outcome.fulfilled (.data .undefined))) }

/-- Settlements applied in order. -/
def settleAll (s : Connector) (calls : List (Nat × Outcome)) : Connector :=
  calls.foldl (fun st c => settle st c.1 c.2) s

/-- Call `promise.then(callback)`: the derived promise and the new state. -/
def thenOn (s : Connector) (c : Completion) (cb : Callback) : Completion × Connector :=
  let n := s.promiseCount
  let s1 : Connector := { s with promiseCount := n + 1 }
  match s1.outcomeOf c, c with
  | some o, _ => (.promise n, { s1 with jobs := s1.jobs ++ [({ callback := cb, derived := n }, o)] })
  | none, .promise m =>
    (.promise n, { s1 with reactions := s1.reactions ++ [(m, { callback := cb, derived := n })] })
  | none, _ => (.promise n, s1)

/-- Call `Promise.all(sources.map(p => p.reflect())).then(callback)`. -/
def joinThen (s : Connector) (sources : List Completion) (cb : Callback) :
    Completion × Connector :=
  let n := s.promiseCount
  let s1 : Connector := { s with promiseCount := n + 1 }
  let j : Join := { sources := sources, reaction := { callback := cb, derived := n } }
  if s1.joinReady j then
    (.promise n, { s1 with jobs := s1.jobs ++ [(j.reaction, Outcome.fulfilled (.data .undefined))] })
  else (.promise n, { s1 with joins := s1.joins ++ [j] })

/-- Items of an array value, of the heap or of the data; `none` for anything else. -/
def Connector.items? (s : Connector) : JsVal → Option (List Value)
  | .array a => s.arrays.get? a
  | .data (.arr items) => some items.toList
  | .data _ => none

/-- Data form of a promise value: a heap array is copied. -/
def Connector.valueOf (s : Connector) : JsVal → Value
  | .data v => v
  | .array a => .arr (Values.ofList ((s.arrays.get? a).getD []))

/-- Truthiness of a promise value. -/
def JsVal.truthy : JsVal → Bool
  | .data v => v.truthy
  | .array _ => true

/-! ## Point lookups and the coalescer -/

/-- Method `_search`: push a search task and return its promise. -/
def _search (s : Connector) (objectType : String) (selector params : Value) :
    Completion × Connector :=
  let (d, s1) := defer s
  (.promise d, push s1
    { deferred := d
      url := s.serviceUrl ++ objectType ++ ".json/search"
      method := "POST"
      body := some selector
      query := params })

/-- Selector `{ _id: { $in: objectIds } }`. -/
def inSelector (objectIds : Value) : Value :=
  .obj (.cons "_id" (.obj (.cons "$in" objectIds .nil)) .nil)

/-- Method `_getByIds`. -/
def _getByIds (s : Connector) (objectType : String) (objectIds params : Value) :
    Completion × Connector :=
  _search s objectType (inSelector objectIds) params

/-- The id when `typeof objectId === 'string' && objectId.length === 24`. -/
def validObjectId : Value → Option String
  | .str id => if jsLength id = 24 then some id else none
  | _ => none

/-- Truthiness of `params && params.fields`. -/
def wantsFields (params : Value) : Bool :=
  params.truthy && ((params.prop? "fields").getD .undefined).truthy

/-- Promise of the object cache for an object when `this.cache &&
this.cache.isAvailable(objectType, objectId)` is truthy. -/
def Connector.cached (s : Connector) (objectType objectId : String) : Option Nat :=
  match s.cache with
  | none => none
  | some c => c.entry objectType objectId

/-- Method `getById`. -/
def getById (s : Connector) (objectType : String) (objectId params versionId : Value) :
    Completion × Connector :=
  match validObjectId objectId with
  | none => (.rejectedWith (.error "Invalid objectId"), s)
  | some id =>
    if versionId.truthy || wantsFields params then
      let (d, s1) := defer s
      (.promise d, push s1
        { deferred := d
          url := s.serviceUrl ++ objectType ++ ".json/" ++
            (if versionId.truthy then "history/" ++ id ++ "/" ++ versionId.toStr
             else "crud/" ++ id)
          method := "GET"
          body := none
          query := params })
    else
      match s.cached objectType id with
      | some p => (.promise p, s)
      | none =>
        let q1 : JsObj (JsObj Nat) :=
          if (s.getByIdQueue.get objectType).isNone then s.getByIdQueue.set objectType []
          else s.getByIdQueue
        let w : JsObj Nat := (q1.get objectType).getD []
        match w.get id with
        | some d => (.promise d, { s with getByIdQueue := q1 })
        | none =>
          let d := s.promiseCount
          let s2 : Connector :=
            { s with
              promiseCount := d + 1
              getByIdQueue := q1.set objectType (w.set id d)
              cache := s.cache.map (fun c => c.putObject objectType id d) }
          let s3 : Connector :=
            if s2.getByIdPrimed then s2
            else { s2 with scheduledFlushes := s2.scheduledFlushes + 1, getByIdPrimed := true }
          (.promise d, s3)

/-- Body of the `forEach` of `spoolQueue` for one entity type. -/
def spoolOne (s : Connector) (objectType : String) : Connector :=
  match s.getByIdQueue.get objectType with
  | none => s
  | some deferredsById =>
    let objectIds := deferredsById.jsKeys
    let s1 : Connector := { s with getByIdQueue := s.getByIdQueue.set objectType [] }
    let r := _getByIds s1 objectType (.arr (Values.ofList (objectIds.map Value.str))) .undefined
    (thenOn r.2 r.1 (.spoolThen deferredsById)).2

/-- Method `spoolQueue`. -/
def spoolQueue (s : Connector) : Connector :=
  { (s.getByIdQueue.jsKeys.foldl spoolOne s) with getByIdPrimed := false }

/-- One callback handed to `process.nextTick` runs. -/
def runNextTick (s : Connector) : Connector :=
  if s.scheduledFlushes = 0 then s
  else spoolQueue { s with scheduledFlushes := s.scheduledFlushes - 1 }

/-- The `reduce` of `spoolQueue`: the response objects by `_id`; `none` is the
TypeError of reading `_id` of a null or undefined element. -/
def objectHashOf : List Value → JsObj Value → Option (JsObj Value)
  | [], hash => some hash
  | object :: rest, hash =>
    match object.prop? "_id" with
    | none => none
    | some i => objectHashOf rest (hash.set i.toStr object)

/-- The calls `deferredsById[objectId].resolve(..)` / `.reject(..)` made by the
success handler of `spoolQueue`, in order, for `objectIds = Object.keys(deferredsById)`. -/
def spoolResolutions (deferredsById : JsObj Nat) (objectHash : JsObj Value) :
    List (Nat × Outcome) :=
  deferredsById.jsKeys.filterMap (fun objectId =>
    (deferredsById.get objectId).map (fun d =>
      match objectHash.get objectId with
      | some object =>
        if object.truthy then (d, Outcome.fulfilled (.data object))
        else (d, Outcome.rejected (.error (objectId ++ " is not found")))
      | none => (d, Outcome.rejected (.error (objectId ++ " is not found")))))

/-- The calls `deferredsById[objectId].reject(err)` made by the failure handler. -/
def spoolRejections (deferredsById : JsObj Nat) (err : JsError) : List (Nat × Outcome) :=
  deferredsById.jsKeys.filterMap (fun objectId =>
    (deferredsById.get objectId).map (fun d => (d, Outcome.rejected err)))

/-! ## Writes -/

/-- Cache write of `update` and `destroy`: the entry becomes `null` when it is truthy. -/
def Connector.invalidate (s : Connector) (objectType key : String) : Connector :=
  match s.cache with
  | none => s
  | some c =>
    if c.isAvailable objectType key then { s with cache := some (c.setEntry objectType key none) }
    else s

/-- Method `update`; `none` is the TypeError of reading `object._id` when
`object` is null or undefined. -/
def update (s : Connector) (objectType : String) (object : Value) :
    Option (Completion × Connector) :=
  match object.prop? "_id" with
  | none => none
  | some id =>
    let (d, s1) := defer s
    let operation : String :=
      if id.truthy && ((id.prop? "length").getD .undefined).gtZero then "PUT" else "POST"
    let s2 : Connector := if id.truthy then s1.invalidate objectType id.toStr else s1
    some (.promise d, push s2
      { deferred := d
        url := s.serviceUrl ++ objectType ++ ".json/crud" ++
          (if operation = "PUT" then "/" ++ id.toStr else "")
        method := operation
        body := some object
        query := .undefined })

/-- Method `destroy`. -/
def destroy (s : Connector) (objectType : String) (objectId : Value) : Completion × Connector :=
  let (d, s1) := defer s
  let s2 : Connector := s1.invalidate objectType objectId.toStr
  (.promise d, push s2
    { deferred := d
      url := s.serviceUrl ++ objectType ++ ".json/crud/" ++ objectId.toStr
      method := "DELETE"
      body := none
      query := .undefined })

/-! ## Bulk lookups, searches and aggregates -/

/-- What a callback does: return a value, throw, or return a promise. -/
inductive CallbackResult where
  | returned (r : JsVal)
  | thrown (e : JsError)
  | chained (c : Completion)
  deriving DecidableEq

/-- The `forEach` of `getByIds` over the inspections: the values of the
fulfilled ones in order, and the reason of the last rejected one. -/
def collectInspections : List Outcome → List JsVal × Option JsError
  | [] => ([], none)
  | .fulfilled r :: rest =>
    let (result, error) := collectInspections rest
    (r :: result, error)
  | .rejected e :: rest =>
    let (result, error) := collectInspections rest
    (result, match error with
      | some later => some later
      | none => some e)

/-- Callback of `getByIds` applied to the inspections, in the order of the ids.
`valueOf` gives the data form of each element of the result array. -/
def getByIdsResult (valueOf : JsVal → Value) (inspections : List Outcome) : CallbackResult :=
  let (result, error) := collectInspections inspections
  if result.length ≠ 0 then .returned (.data (.arr (Values.ofList (result.map valueOf))))
  else
    match error with
    | some e => .thrown (.error e.toStr)
    | none => .returned (.data (.arr .nil))

/-- Calls `this.getById(objectType, objectId, params)` for each id in turn. -/
def getByIdEach (objectType : String) (params : Value) :
    List Value → Connector → List Completion × Connector
  | [], s => ([], s)
  | objectId :: rest, s =>
    let r := getById s objectType objectId params .undefined
    let rs := getByIdEach objectType params rest r.2
    (r.1 :: rs.1, rs.2)

/-- Method `getByIds` on an array of ids. -/
def getByIds (s : Connector) (objectType : String) (objectIds : List Value) (params : Value) :
    Completion × Connector :=
  if objectIds.length = 0 then (.resolvedWith (.data (.arr .nil)), s)
  else if wantsFields params then
    _getByIds s objectType (.arr (Values.ofList objectIds)) params
  else
    let r := getByIdEach objectType params objectIds s
    joinThen r.2 r.1 (.getByIdsCollect r.1)

/-- Call `this.getByIds(objectType, ids)` with whatever value `ids` is: an
array goes to `getByIds`; a value without `length` or without `map` throws a
TypeError; a non-array whose `length` is `0` resolves with `[]`. -/
def getByIdsOf (s : Connector) (objectType : String) (ids : JsVal) :
    Except JsError (Completion × Connector) :=
  match s.items? ids with
  | some items => .ok (getByIds s objectType items .undefined)
  | none =>
    match (s.valueOf ids).prop? "length" with
    | none => .error (.typeError "Cannot read property \x27length\x27 of undefined")
    | some (.num 0) => .ok (.resolvedWith (.data (.arr .nil)), s)
    | some _ => .error (.typeError "objectIds.map is not a function")

/-- Parameters `Object.assign({ fields: '_id' }, params)`. -/
def idParams (params : Value) : Value :=
  .obj (Props.assign (.cons "fields" (.str "_id") .nil) params.ownProps)

/-- Key `JSON.stringify(parts)` of a cached query. -/
def queryHash (parts : List Value) : String :=
  (Value.json? (.arr (Values.ofList parts))).getD ""

/-- Truthiness of `selector && (typeof selector === 'object') && Object.keys(selector).length`. -/
def selectorGiven : Value → Bool
  | .obj (.cons _ _ _) => true
  | .arr (.cons _ _) => true
  | _ => false

/-- Slot of `caches` for a type after `if (!caches[objectType]) caches[objectType] = LRU(1000)`. -/
def ensureLRU (caches : JsObj (Option LRU)) (objectType : String) : JsObj (Option LRU) × LRU :=
  match caches.get objectType with
  | some (some lru) => (caches, lru)
  | _ => (caches.set objectType (some { max := 1000, entries := [] }), { max := 1000, entries := [] })

mutual
/-- Method `search`.  The first argument bounds the depth of the nested calls
between `search`, `getIds` and `getAll`; `none` means the bound was reached. -/
def search : Nat → Connector → String → Value → Value → Option (Completion × Connector)
  | 0, _, _, _, _ => none
  | fuel + 1, s, objectType, selector, params =>
    if s.cache.isSome && !wantsFields params then
      match getIds fuel s objectType selector params with
      | none => none
      | some r => some (thenOn r.2 r.1 (.searchGetByIds objectType))
    else if selectorGiven selector then some (_search s objectType selector params)
    else getAll fuel s objectType params
/-- Method `getIds`. -/
def getIds : Nat → Connector → String → Value → Value → Option (Completion × Connector)
  | 0, _, _, _, _ => none
  | fuel + 1, s, objectType, selector, params =>
    let hash := queryHash [.str objectType, selector, params]
    let looked : Option JsVal × Connector :=
      match s.cache with
      | none => (none, s)
      | some c =>
        let slot := ensureLRU c.getIdsCaches objectType
        let hit := slot.2.get hash
        (hit.1, { s with cache := some { c with getIdsCaches := slot.1.set objectType (some hit.2) } })
    match looked.1.filter JsVal.truthy with
    | some result => some (.resolvedWith result, looked.2)
    | none =>
      match search fuel looked.2 objectType selector (idParams params) with
      | none => none
      | some r =>
        let resultPromise := thenOn r.2 r.1 .getIdsMap
        if resultPromise.2.cache.isSome then
          some (resultPromise.1,
            (thenOn resultPromise.2 resultPromise.1 (.getIdsStore objectType hash)).2)
        else some resultPromise
/-- Method `getAll`. -/
def getAll : Nat → Connector → String → Value → Option (Completion × Connector)
  | 0, _, _, _ => none
  | fuel + 1, s, objectType, params =>
    if s.cache.isSome && !wantsFields params then
      search fuel s objectType (.obj .nil) params
    else
      let (d, s1) := defer s
      some (.promise d, push s1
        { deferred := d
          url := s.serviceUrl ++ objectType ++ ".json/crud"
          method := "GET"
          body := none
          query := params })
end

/-- Method `getId`. -/
def getId (fuel : Nat) (s : Connector) (objectType : String) (selector : Value) :
    Option (Completion × Connector) :=
  match getIds fuel s objectType selector (.obj (.cons "limit" (.num 1) .nil)) with
  | none => none
  | some r => some (thenOn r.2 r.1 .getIdPop)

/-- Method `aggregate`. -/
def aggregate (s : Connector) (objectType : String) (aggregationPipeline : Value) :
    Completion × Connector :=
  if !aggregationPipeline.truthy ||
      !((aggregationPipeline.prop? "length").getD .undefined).truthy then
    (.rejectedWith (.error "Please provide a valid Aggregation Pipeline."), s)
  else
    let hash := queryHash [.str objectType, aggregationPipeline]
    let looked : Option JsVal × Connector :=
      match s.cache with
      | none => (none, s)
      | some c =>
        let slot := ensureLRU c.aggregateCaches objectType
        let hit := slot.2.get hash
        (hit.1, { s with cache := some { c with aggregateCaches := slot.1.set objectType (some hit.2) } })
    match looked.1.filter JsVal.truthy with
    | some result => (.resolvedWith result, looked.2)
    | none =>
      let (d, s1) := defer looked.2
      let s2 := push s1
        { deferred := d
          url := s.serviceUrl ++ objectType ++ ".json/aggregate"
          method := "POST"
          body := some aggregationPipeline
          query := .undefined }
      if s2.cache.isSome then thenOn s2 (.promise d) (.aggregateStore objectType hash)
      else (.promise d, s2)

/-! ## Document references -/

/-- Inner `some` of `getByRef`: the first sub-document whose `_id` is strictly
equal to `objectId`.  The error is the TypeError of reading `_id` of a null or
undefined element met before a match. -/
def findSubDocument (objectId : Value) : List Value → Except JsError (Option Value)
  | [] => .ok none
  | subDocument :: rest =>
    match subDocument.prop? "_id" with
    | none => .error (.typeError "Cannot read property \x27_id\x27 of null")
    | some i => if i.strictEq objectId then .ok (some subDocument) else findSubDocument objectId rest

/-- Outer `some` of `getByRef` over the steps of the path: the final value of
`result`, which is `null` as soon as a step finds nothing.  A field value that
is truthy and not an array, be it data or a built-in member such as the
inherited `constructor`, has no method `some`: the call throws a TypeError. -/
def walkPath : List Value → Value → Except JsError Value
  | [], result => .ok result
  | pathNibble :: rest, result =>
    match pathNibble.prop? "field", pathNibble.prop? "objectId" with
    | some field, some objectId =>
      match result.prop? field.toStr with
      | none => .error (.typeError "Cannot read property of null")
      | some (.arr items) =>
        match findSubDocument objectId items.toList with
        | .error e => .error e
        | .ok none => .ok .null
        | .ok (some subDocument) => walkPath rest subDocument
      | some other =>
        if other.truthy || result.builtinMember field.toStr then
          .error (.typeError "result[pathNibble.field].some is not a function")
        else .ok .null
    | _, _ => .error (.typeError "Cannot read property \x27field\x27 of null")

/-- Callback of `getByRef` on the parent document. -/
def getByRefResult (path : Value) (parent : Value) : CallbackResult :=
  match path with
  | .arr steps =>
    match walkPath steps.toList parent with
    | .error e => .thrown e
    | .ok result =>
      if result.truthy then .returned (.data result)
      else .thrown (.error "The referred object within it\x27s parent could not be found")
  | _ => .thrown (.typeError "ref.path.some is not a function")

/-- Method `getByRef`; the error is a TypeError thrown by the call itself
(`rootDocumentEntityType` truthy but not a string). -/
def getByRef (s : Connector) (ref parentDocument : Value) :
    Except JsError (Completion × Connector) :=
  let entityType := (ref.prop? "rootDocumentEntityType").getD .undefined
  let rootId := (ref.prop? "rootDocumentId").getD .undefined
  let path := (ref.prop? "path").getD .undefined
  if !(ref.truthy && entityType.truthy && (rootId.truthy || parentDocument.truthy)) then
    .ok (.rejectedWith
      (.error "Please provide a documentReference object with a type and id"), s)
  else
    match entityType with
    | .str t =>
      let parentDocumentPromise : Completion × Connector :=
        if (jsSplit t '.').head? ≠ some "parent" then getById s t rootId .undefined .undefined
        else (.resolvedWith (.data parentDocument), s)
      let pathLength := (path.prop? "length").getD .undefined
      if !(path.truthy && pathLength.truthy && pathLength.gtZero) then .ok parentDocumentPromise
      else .ok (thenOn parentDocumentPromise.2 parentDocumentPromise.1 (.getByRefWalk path))
    | _ => .error (.typeError "ref.rootDocumentEntityType.split is not a function")

/-! ## Running callbacks -/

/-- Result of `Array.prototype.map(result => result._id)`; `none` is the
TypeError of reading `_id` of a null or undefined element. -/
def idsOf : List Value → Option (List Value)
  | [] => some []
  | result :: rest =>
    match result.prop? "_id", idsOf rest with
    | some i, some ids => some (i :: ids)
    | _, _ => none

/-- Store of a value in the LRU of a type: `caches[objectType].set(hash, value)`;
`none` is the TypeError raised when the slot is undefined or `null`. -/
def storeIn (caches : JsObj (Option LRU)) (objectType hash : String) (value : JsVal) :
    Option (JsObj (Option LRU)) :=
  match caches.get objectType with
  | some (some lru) => some (caches.set objectType (some (lru.set hash value)))
  | _ => none

/-- Run of a callback on the outcome of its promise. -/
def runCallback (s : Connector) : Callback → Outcome → CallbackResult × Connector
  | .spoolThen deferredsById, .fulfilled objects =>
    match s.items? objects with
    | none => (.thrown (.typeError "objects.reduce is not a function"), s)
    | some items =>
      match objectHashOf items [] with
      | none => (.thrown (.typeError "Cannot read property \x27_id\x27 of null"), s)
      | some objectHash =>
        (.returned (.data .undefined), settleAll s (spoolResolutions deferredsById objectHash))
  | .spoolThen deferredsById, .rejected err =>
    (.returned (.data .undefined), settleAll s (spoolRejections deferredsById err))
  | .adopt, .fulfilled r => (.returned r, s)
  | _, .rejected e => (.thrown e, s)
  | .getIdsMap, .fulfilled results =>
    match s.items? results with
    | none => (.thrown (.typeError "results.map is not a function"), s)
    | some items =>
      match idsOf items with
      | none => (.thrown (.typeError "Cannot read property \x27_id\x27 of null"), s)
      | some ids => (.returned (.array s.arrays.length), { s with arrays := s.arrays ++ [ids] })
  | .getIdsStore objectType hash, .fulfilled ids =>
    match s.cache with
    | none => (.thrown (.typeError "Cannot read property \x27getIdsCaches\x27 of undefined"), s)
    | some c =>
      match storeIn c.getIdsCaches objectType hash ids with
      | none => (.thrown (.typeError "Cannot read property \x27set\x27 of null"), s)
      | some caches => (.returned ids, { s with cache := some { c with getIdsCaches := caches } })
  | .getIdPop, .fulfilled ids =>
    match ids with
    | .array a =>
      match s.arrays.get? a with
      | none => (.thrown (.typeError "ids.pop is not a function"), s)
      | some items =>
        (.returned (.data (items.getLast?.getD .undefined)),
          { s with arrays := s.arrays.set a items.dropLast })
    | .data (.arr items) => (.returned (.data (items.toList.getLast?.getD .undefined)), s)
    | .data _ => (.thrown (.typeError "ids.pop is not a function"), s)
  | .searchGetByIds objectType, .fulfilled ids =>
    match getByIdsOf s objectType ids with
    | .error e => (.thrown e, s)
    | .ok r => (.chained r.1, r.2)
  | .aggregateStore objectType hash, .fulfilled result =>
    match s.cache with
    | none => (.thrown (.typeError "Cannot read property \x27aggregateCaches\x27 of undefined"), s)
    | some c =>
      match storeIn c.aggregateCaches objectType hash result with
      | none => (.thrown (.typeError "Cannot read property \x27set\x27 of null"), s)
      | some caches => (.returned result, { s with cache := some { c with aggregateCaches := caches } })
  | .getByRefWalk path, .fulfilled parent => (getByRefResult path (s.valueOf parent), s)
  | .getByIdsCollect sources, .fulfilled _ =>
    (getByIdsResult s.valueOf (sources.filterMap s.outcomeOf), s)

/-- Settlement of the derived promise of a callback from what the callback did. -/
def finish (s : Connector) (derived : Nat) : CallbackResult → Connector
  | .returned r => settle s derived (.fulfilled r)
  | .thrown e => settle s derived (.rejected e)
  | .chained c =>
    match s.outcomeOf c, c with
    | some o, _ => settle s derived o
    | none, .promise m =>
      { s with reactions := s.reactions ++ [(m, { callback := .adopt, derived := derived })] }
    | none, _ => s

/-- The oldest waiting job runs: its callback, then the settlement of its
derived promise. -/
def runJob (s : Connector) : Connector :=
  match s.jobs with
  | [] => s
  | (reaction, o) :: rest =>
    let r := runCallback { s with jobs := rest } reaction.callback o
    finish r.2 reaction.derived r.1

/-- Jobs run until none is left or `n` have run. -/
def runJobs : Nat → Connector → Connector
  | 0, s => s
  | n + 1, s => runJobs n (runJob s)

/-! ## Dispatcher -/

/-- Text of the error for a connector without key and token. -/
def missingKeyMessage : String :=
  "Missing key or token for Communibase Connector: please set COMMUNIBASE_KEY environment" ++
  " variable, or spawn a new instance using require(\x27communibase-connector-js\x27).clone(\x27<" ++
  "your api key>\x27)"

/-- Worker of `async.queue` up to its call of `fetch`. -/
def worker (s : Connector) (task : Task) : Connector :=
  if !s.key.truthy && !s.token.truthy then
    { (settle s task.deferred (.rejected (.error missingKeyMessage))) with
      workerCallbacks := s.workerCallbacks + 1 }
  else
    let headers : List (String × Value) :=
      [("Accept", .str "application/json"), ("Content-Type", .str "application/json")]
      ++ (match s.apiHost with
          | some h => if h = "" then [] else [("Host", .str h)]
          | none => [])
      ++ (if s.key.truthy then [("x-api-key", s.key)] else [])
      ++ (if s.token.truthy then [("x-access-token", s.token)] else [])
    { s with running := s.running ++ [{ task := task, headers := headers }] }

/-- The dispatcher hands the oldest waiting task to a worker when fewer than
eight requests are running. -/
def dispatch (s : Connector) : Connector :=
  match s.queue with
  | [] => s
  | task :: rest => if s.running.length < 8 then worker { s with queue := rest } task else s

/-- Outcome of a task from the response status and its parsed JSON body, and
the metadata attached to the promise. -/
def responseOutcome (status : Nat) (body : Value) : Outcome × Option Value :=
  if status = 200 then
    match body.prop? "metadata", body.prop? "records" with
    | some md, some records =>
      if md.truthy && records.truthy then (.fulfilled (.data records), some md)
      else (.fulfilled (.data body), none)
    | _, _ => (.rejected (.typeError "Cannot read property \x27metadata\x27 of null"), none)
  else
    match CommunibaseError body with
    | some e => (.rejected e, none)
    | none => (.rejected (.typeError "Cannot read property \x27code\x27 of null"), none)

/-- The response of a running request arrives with a JSON body. -/
def onResponse (s : Connector) (req : Request) (status : Nat) (body : Value) : Connector :=
  let r := responseOutcome status body
  let s1 : Connector :=
    match r.2 with
    | some md => { s with metadata := s.metadata ++ [(req.task.deferred, md)] }
    | none => s
  { (settle s1 req.task.deferred r.1) with
    running := s1.running.erase req
    workerCallbacks := s1.workerCallbacks + 1 }

/-- The fetch of a running request fails, or its body is not JSON: `fail(error)`. -/
def onFetchError (s : Connector) (req : Request) (error : JsError) : Connector :=
  { (settle s req.task.deferred (.rejected error)) with
    running := s.running.erase req
    workerCallbacks := s.workerCallbacks + 1 }

/-! ## Sample values used to exercise the definitions -/

/-- A well-formed object id. -/
def sampleId : String := "52259f95dafd757b06002221"

/-- A second well-formed object id. -/
def otherId : String := "52259f95dafd757b06002222"

/-- A connector with an api key and no cache. -/
def plainConnector : Connector := Connector.create (.str "secret") none none

/-- A connector with an api key and the cache enabled. -/
def cachingConnector : Connector := enableCache plainConnector

/-- The caching connector after one `getById("Person", sampleId)`. -/
def lookedUp : Connector :=
  (getById cachingConnector "Person" (.str sampleId) .undefined .undefined).2

/-- The same connector after the flush armed by that lookup has run. -/
def flushed : Connector := runNextTick lookedUp

/-- A document with the given `_id` and a name. -/
def sampleDoc (id name : String) : Value :=
  .obj (.cons "_id" (.str id) (.cons "name" (.str name) .nil))

/-- The object cache of `lookedUp`: the promise `0` stored for `sampleId`. -/
def lookedUpCache : Cache :=
  { getIdsCaches := [], aggregateCaches := [], objectCache := [("Person", [(sampleId, some 0)])] }

/-- Parameters asking for a projection: `{ fields: 'name' }`. -/
def fieldsParams : Value := .obj (.cons "fields" (.str "name") .nil)

/-- The first running request of a connector (a dummy request when none runs). -/
def firstRunning (s : Connector) : Request :=
  s.running.headD { task := { deferred := 0, url := "", method := "", body := none, query := .undefined }, headers := [] }

/-- The connector `flushed` after the dispatcher has started the batched query,
the remote has answered it with status 500 and an empty object, and the
callbacks have run: the lookup of `sampleId` has failed. -/
def failedLookup : Connector :=
  runJobs 3 (onResponse (dispatch flushed) (firstRunning (dispatch flushed)) 500 (.obj .nil))

/-- Selector `{ firstName: 'Henk' }`. -/
def sampleSelector : Value := .obj (.cons "firstName" (.str "Henk") .nil)

/-- State of a connector after a call that returned `some`, else the connector itself. -/
def stateAfter (s : Connector) (r : Option (Completion × Connector)) : Connector :=
  (r.map Prod.snd).getD s

/-- The caching connector after `getId("Person", sampleSelector)`, the start of
its search task, a response `200` with one matching document, and the run of
the callbacks. -/
def afterFirstGetId : Connector :=
  runJobs 5
    (onResponse (dispatch (stateAfter cachingConnector (getId 4 cachingConnector "Person" sampleSelector)))
      (firstRunning (dispatch (stateAfter cachingConnector (getId 4 cachingConnector "Person" sampleSelector))))
      200 (.arr (.cons (sampleDoc sampleId "Henk") .nil)))

/-- The same connector after a second `getId("Person", sampleSelector)` and the
run of the callbacks. -/
def afterSecondGetId : Connector :=
  runJobs 5 (stateAfter afterFirstGetId (getId 4 afterFirstGetId "Person" sampleSelector))

/-- An aggregation pipeline `[{ $unwind: '$participants' }]`. -/
def samplePipeline : Value :=
  .arr (.cons (.obj (.cons "$unwind" (.str "$participants") .nil)) .nil)

/-- The caching connector after `aggregate("Event", samplePipeline)` and the
start of its task by the dispatcher. -/
def aggregating : Connector :=
  dispatch (aggregate cachingConnector "Event" samplePipeline).2

/-- The aggregate call above when a dirty message for `Event` is handled while
the request is in flight, then the response `200` with result `[{count: 3}]`
arrives and the callbacks run. -/
def aggregateAfterDirty : Connector :=
  runJobs 3
    (onResponse (onDirtyMessage aggregating "Event|52259f95dafd757b06002221")
      (firstRunning aggregating) 200
      (.arr (.cons (.obj (.cons "count" (.num 3) .nil)) .nil)))

/-- The same aggregate call without any dirty message in between. -/
def aggregateUndisturbed : Connector :=
  runJobs 3
    (onResponse aggregating (firstRunning aggregating) 200
      (.arr (.cons (.obj (.cons "count" (.num 3) .nil)) .nil)))

/-- Parameters whose `fields` key is present but falsy: `{ fields: '' }`. -/
def emptyFields : Value := .obj (.cons "fields" (.str "") .nil)

/-- The cache is enabled and its id-list cache for the type holds no entry. -/
def idsCacheEmpty (s : Connector) (objectType : String) : Prop :=
  ∃ c, s.cache = some c ∧
    ∀ lru, c.getIdsCaches.get objectType = some (some lru) → lru.entries = []

/-- The connector `flushed` after a lookup of another entity type,
`getById("Company", otherId)`, which arms the next flush. -/
def secondLookup : Connector :=
  (getById flushed "Company" (.str otherId) .undefined .undefined).2

/-- The same connector after that second flush has run. -/
def secondRound : Connector := runNextTick secondLookup

/-- Number of entity types whose window holds at least one pending lookup. -/
def nonEmptyWindows (s : Connector) : Nat :=
  (s.getByIdQueue.jsKeys.filter
    (fun objectType => decide ((s.getByIdQueue.get objectType).getD [] ≠ []))).length

/-! ## States and tasks named in the statements -/

/-- A step `{ field, objectId }` of a reference path. -/
def pathStep (step : String × String) : Value :=
  .obj (.cons "field" (.str step.1) (.cons "objectId" (.str step.2) .nil))

/-- One step of a reference, in the words of the specification: from the array
under `field` of the document, the first element whose `_id` equals `objectId`. -/
def selectStep (field objectId : String) (doc : Value) : Option Value :=
  match doc.prop? field with
  | some (.arr items) =>
    items.toList.find? (fun sub => decide (sub.prop? "_id" = some (.str objectId)))
  | _ => none

/-- The sub-document reached by following the steps in order. -/
def followPath : List (String × String) → Value → Option Value
  | [], doc => some doc
  | step :: rest, doc => (selectStep step.1 step.2 doc).bind (followPath rest)

/-- The data has the shape a reference path assumes: the current document is
an object; the field named by the step is an array without `null` or
`undefined` elements, or is falsy, or is missing and then not a name inherited
from `Object.prototype`; and the same holds from the selected sub-document on. -/
def PathShaped : List (String × String) → Value → Prop
  | [], _ => True
  | step :: rest, doc =>
    match doc with
    | .obj ps =>
      match ps.get? step.1 with
      | none => step.1 ∉ objectPrototypeMembers
      | some (.arr items) =>
        (∀ x ∈ items.toList, x ≠ .null ∧ x ≠ .undefined) ∧
        ∀ sub, selectStep step.1 step.2 doc = some sub → PathShaped rest sub
      | some v => v.truthy = false
    | _ => False

/-- The promise of the parent document in `getByRef`. -/
def parentPromise (s : Connector) (t : String) (rootId parentDocument : Value) :
    Completion × Connector :=
  if (jsSplit t '.').head? ≠ some "parent" then getById s t rootId .undefined .undefined
  else (.resolvedWith (.data parentDocument), s)

/-- Error of `getByRef` for a path that leads nowhere. -/
def notFoundError : JsError :=
  .error "The referred object within it\x27s parent could not be found"

/-- What the callback of `getByRef` does for the sub-document that the path
leads to: return it, or throw the not-found error when the path leads nowhere. -/
def refOutcome : Option Value → CallbackResult
  | some sub => .returned (.data sub)
  | none => .thrown notFoundError

/-- A person with two addresses. -/
def samplePerson : Value :=
  .obj (.cons "_id" (.str sampleId) (.cons "addresses"
    (.arr (.cons (.obj (.cons "_id" (.str "a1") (.cons "city" (.str "Delft") .nil)))
      (.cons (.obj (.cons "_id" (.str "a2") (.cons "city" (.str "Breda") .nil))) .nil))) .nil))

/-- A person whose `addresses` field holds a string instead of an array. -/
def oddPerson : Value :=
  .obj (.cons "_id" (.str sampleId) (.cons "addresses" (.str "Delft") .nil))

/-- A person whose `addresses` array holds `null` before the address. -/
def sparsePerson : Value :=
  .obj (.cons "_id" (.str sampleId) (.cons "addresses"
    (.arr (.cons .null
      (.cons (.obj (.cons "_id" (.str "a1") (.cons "city" (.str "Delft") .nil))) .nil))) .nil))

/-- A reference to a sub-document of `parentDocument`: entity type `parent`. -/
def sampleRef (steps : List (String × String)) : Value :=
  .obj (.cons "rootDocumentEntityType" (.str "parent")
    (.cons "path" (.arr (Values.ofList (steps.map pathStep))) .nil))

/-- Settled state of the promise that `getByRef` returns for a reference into
the given parent document, once the waiting callbacks have run. -/
def settledRef (s : Connector) (ref parentDocument : Value) : Option Outcome :=
  match getByRef s ref parentDocument with
  | .ok r => (runJobs 2 r.2).outcomeOf r.1
  | .error _ => none


/-- Value of a fulfilled outcome. -/
def Outcome.value? : Outcome → Option JsVal
  | .fulfilled r => some r
  | .rejected _ => none

/-- The outcome is a rejection. -/
def Outcome.isRejected : Outcome → Bool
  | .fulfilled _ => false
  | .rejected _ => true

/-- The callback threw. -/
def CallbackResult.isThrown : CallbackResult → Bool
  | .thrown _ => true
  | _ => false


/-- State after a `getById` that creates a new pending lookup for `(T, X)`. -/
def missState (s : Connector) (T X : String) : Connector :=
  { s with
    promiseCount := s.promiseCount + 1
    getByIdQueue :=
      (if (s.getByIdQueue.get T).isNone then s.getByIdQueue.set T [] else s.getByIdQueue).set T
        (((s.getByIdQueue.get T).getD []).set X s.promiseCount)
    cache := s.cache.map (fun c => c.putObject T X s.promiseCount)
    scheduledFlushes := if s.getByIdPrimed then s.scheduledFlushes else s.scheduledFlushes + 1
    getByIdPrimed := true }

/-- The search task pushed by `spoolQueue` for the ids `objectIds` of a type. -/
def flushTask (serviceUrl objectType : String) (d : Nat) (objectIds : List String) : Task :=
  { deferred := d
    url := serviceUrl ++ objectType ++ ".json/search"
    method := "POST"
    body := some (inSelector (.arr (Values.ofList (objectIds.map Value.str))))
    query := .undefined }

/-- The response object whose `_id` equals `X`, the last one when several
objects of the response carry that `_id`. -/
def lastWithId (X : String) : List Value → Option Value
  | [] => none
  | object :: rest =>
    match lastWithId X rest with
    | some later => some later
    | none => if object.prop? "_id" = some (.str X) then some object else none

/-- What the lookup of `X` is settled with for a batched response `objects`:
the response object whose `_id` equals `X`, or the error `<X> is not found`. -/
def lookupOutcome (objects : List Value) (X : String) : Outcome :=
  match lastWithId X objects with
  | some object => .fulfilled (.data object)
  | none => .rejected (.error (X ++ " is not found"))

/-- A response element is a document: an object whose `_id` is a string. -/
def isDocument (v : Value) : Prop :=
  ∃ ps id, v = .obj ps ∧ ps.get? "_id" = some (.str id)

/-! ## Dictionaries -/

theorem JsObj.get_set_same {α : Type} (o : JsObj α) (k : String) (v : α) :
    (o.set k v).get k = some v := by
  induction o with
  | nil => simp [JsObj.set, JsObj.get]
  | cons p rest ih =>
    obtain ⟨k1, v1⟩ := p
    by_cases h : k1 = k
    · simp [JsObj.set, JsObj.get, h]
    · simp [JsObj.set, JsObj.get, h, ih]

theorem JsObj.get_set_other {α : Type} (o : JsObj α) (k k2 : String) (v : α) (h : k ≠ k2) :
    (o.set k v).get k2 = o.get k2 := by
  induction o with
  | nil => simp [JsObj.set, JsObj.get, h]
  | cons p rest ih =>
    obtain ⟨k1, v1⟩ := p
    by_cases h1 : k1 = k
    · subst h1
      simp [JsObj.set, JsObj.get, h]
    · by_cases h2 : k1 = k2
      · subst h2
        simp [JsObj.set, JsObj.get, h1]
      · simp [JsObj.set, JsObj.get, h1, h2, ih]

theorem JsObj.set_set {α : Type} (o : JsObj α) (k : String) (v v2 : α) :
    (o.set k v).set k v2 = o.set k v2 := by
  induction o with
  | nil => simp [JsObj.set]
  | cons p rest ih =>
    obtain ⟨k1, v1⟩ := p
    by_cases h : k1 = k
    · simp [JsObj.set, h]
    · simp [JsObj.set, h, ih]

/-! ## Validation of the object id -/

/-- C1. For every connector state and every `objectId` that is not a string of
exactly 24 characters, `getById` returns `Promise.reject(new Error('Invalid
objectId'))` and the connector state is returned unchanged: no task is pushed,
no flush is armed, and the windows and the object cache are what they were. -/
theorem getById_invalid (s : Connector) (objectType : String) (objectId params versionId : Value)
    (h : ∀ id, objectId = .str id → jsLength id ≠ 24) :
    getById s objectType objectId params versionId
      = (.rejectedWith (.error "Invalid objectId"), s) := by
  have hv : validObjectId objectId = none := by
    cases objectId <;> simp [validObjectId]
    exact h _ rfl
  simp [getById, hv]

/-- Witness of C1: a ten-character id. -/
theorem getById_invalid_witness :
    getById (enableCache (Connector.create (.str "k") none none)) "Person" (.str "1234567890")
      .undefined .undefined
      = (.rejectedWith (.error "Invalid objectId"),
          enableCache (Connector.create (.str "k") none none)) :=
  getById_invalid _ _ _ _ _ (by intro id h; cases h; decide)

/-! ## Object cache entries -/

theorem Cache.rawEntry_setEntry_same (c : Cache) (T X : String) (e : Option Nat)
    (h : (c.objectCache.get T).isSome) :
    (c.setEntry T X e).rawEntry T X = some e := by
  cases hs : c.objectCache.get T with
  | none => simp [hs] at h
  | some store =>
    simp [Cache.setEntry, Cache.rawEntry, hs, JsObj.get_set_same]

theorem Cache.rawEntry_setEntry_other (c : Cache) (T X T2 X2 : String) (e : Option Nat)
    (h : T2 ≠ T ∨ X2 ≠ X) :
    (c.setEntry T X e).rawEntry T2 X2 = c.rawEntry T2 X2 := by
  cases hs : c.objectCache.get T with
  | none => simp [Cache.setEntry, hs]
  | some store =>
    by_cases hT : T = T2
    · subst hT
      have hX : X ≠ X2 := by
        rcases h with h | h
        · exact absurd rfl h
        · exact fun h2 => h h2.symm
      simp [Cache.setEntry, Cache.rawEntry, hs, JsObj.get_set_same, JsObj.get_set_other _ _ _ _ hX]
    · simp [Cache.setEntry, Cache.rawEntry, hs, JsObj.get_set_other _ _ _ _ hT]

theorem Cache.setEntry_getIdsCaches (c : Cache) (T X : String) (e : Option Nat) :
    (c.setEntry T X e).getIdsCaches = c.getIdsCaches := by
  unfold Cache.setEntry
  split <;> rfl

theorem Cache.setEntry_aggregateCaches (c : Cache) (T X : String) (e : Option Nat) :
    (c.setEntry T X e).aggregateCaches = c.aggregateCaches := by
  unfold Cache.setEntry
  split <;> rfl

theorem Cache.setEntry_setEntry (c : Cache) (T X : String) (e : Option Nat) :
    (c.setEntry T X e).setEntry T X e = c.setEntry T X e := by
  cases hs : c.objectCache.get T with
  | none => simp [Cache.setEntry, hs]
  | some store =>
    simp [Cache.setEntry, hs, JsObj.get_set_same, JsObj.set_set]

theorem Cache.objectCache_get_setEntry_other (c : Cache) (T X T2 : String) (e : Option Nat)
    (h : T ≠ T2) :
    (c.setEntry T X e).objectCache.get T2 = c.objectCache.get T2 := by
  cases hs : c.objectCache.get T with
  | none => simp [Cache.setEntry, hs]
  | some store => simp [Cache.setEntry, hs, JsObj.get_set_other _ _ _ _ h]

theorem Cache.onMessage_pair (c : Cache) (m T X : String) (hm : jsSplit m '|' = [T, X]) :
    c.onMessage m =
      Cache.setEntry
        { c with
          getIdsCaches := c.getIdsCaches.set T none
          aggregateCaches := c.aggregateCaches.set T none } T X none := by
  simp [Cache.onMessage, hm]

theorem Cache.onMessage_other (c : Cache) (m : String) (hm : (jsSplit m '|').length ≠ 2) :
    c.onMessage m = c := by
  unfold Cache.onMessage
  split
  · rename_i T X heq
    rw [heq] at hm
    simp at hm
  · rfl

theorem Cache.onMessage_idem (c : Cache) (m : String) :
    (c.onMessage m).onMessage m = c.onMessage m := by
  by_cases hlen : (jsSplit m '|').length = 2
  · obtain ⟨T, X, hm⟩ : ∃ T X, jsSplit m '|' = [T, X] := by
      match h : jsSplit m '|' with
      | [] => simp [h] at hlen
      | [_] => simp [h] at hlen
      | [a, b] => exact ⟨a, b, rfl⟩
      | _ :: _ :: _ :: _ => simp [h] at hlen
    rw [Cache.onMessage_pair _ m T X hm, Cache.onMessage_pair c m T X hm]
    cases hs : c.objectCache.get T with
    | none => simp [Cache.setEntry, hs, JsObj.set_set]
    | some store => simp [Cache.setEntry, hs, JsObj.set_set, JsObj.get_set_same]
  · rw [Cache.onMessage_other _ m hlen]

theorem Connector.cached_invalidate_same (s : Connector) (T X : String) :
    (s.invalidate T X).cached T X = none := by
  unfold Connector.invalidate
  cases hc : s.cache with
  | none => simp [Connector.cached, hc]
  | some c =>
    by_cases ha : c.isAvailable T X = true
    · have hstore : (c.objectCache.get T).isSome := by
        cases hs : c.objectCache.get T with
        | none => simp [Cache.isAvailable, Cache.entry, Cache.rawEntry, hs] at ha
        | some store => rfl
      simp [ha, Connector.cached, Cache.entry, Cache.rawEntry_setEntry_same c T X none hstore]
    · have hn : c.entry T X = none := by
        simpa [Cache.isAvailable] using ha
      simp [ha, Connector.cached, hc, hn]

theorem Connector.rawEntry_invalidate_other (s : Connector) (c : Cache) (T X T2 X2 : String)
    (hc : s.cache = some c) (h : T2 ≠ T ∨ X2 ≠ X) :
    ∃ c2, (s.invalidate T X).cache = some c2 ∧ c2.rawEntry T2 X2 = c.rawEntry T2 X2 := by
  unfold Connector.invalidate
  by_cases ha : c.isAvailable T X = true
  · exact ⟨c.setEntry T X none, by simp [hc, ha], Cache.rawEntry_setEntry_other c T X T2 X2 none h⟩
  · exact ⟨c, by simp [hc, ha], rfl⟩

theorem getById_hit (s : Connector) (T X : String) (P : Nat) (params versionId : Value)
    (hX : jsLength X = 24) (hp : wantsFields params = false) (hv : versionId.truthy = false)
    (hcache : s.cached T X = some P) :
    getById s T (.str X) params versionId = (.promise P, s) := by
  simp [getById, validObjectId, hX, hp, hv, hcache]

/-- C6. Cache hit: when the cache is enabled and the object cache holds the
promise `P` for `(T, X)` (`X` a 24-character id, the only ids `getById` stores),
`getById(T, X)` without `fields` and `versionId` returns `P` and leaves the whole
connector state unchanged (no task, no armed flush, same window), and so does
every later repetition as long as the state is not changed by an invalidation. -/
theorem getById_cache_hit (s : Connector) (T X : String) (P : Nat) (params versionId : Value)
    (hX : jsLength X = 24) (hp : wantsFields params = false) (hv : versionId.truthy = false)
    (hcache : s.cached T X = some P) :
    getById s T (.str X) params versionId = (.promise P, s) ∧
    ∀ n : Nat, (fun st => (getById st T (.str X) params versionId).2)^[n] s = s := by
  have h1 := getById_hit s T X P params versionId hX hp hv hcache
  refine ⟨h1, ?_⟩
  intro n
  induction n with
  | zero => rfl
  | succ k ih => rw [Function.iterate_succ_apply', ih, h1]

/-- C9. Handling the same dirty message twice leaves the connector (hence the
id-list caches, the aggregate caches and the object cache) exactly as handling
it once does. -/
theorem onDirtyMessage_idempotent (s : Connector) (m : String) :
    onDirtyMessage (onDirtyMessage s m) m = onDirtyMessage s m := by
  unfold onDirtyMessage
  cases hc : s.cache with
  | none => simp [hc]
  | some c => simp [Cache.onMessage_idem]

/-- C10. A dirty message `T|X` sets the id-list cache and the aggregate cache
slot of `T` to `null`, makes the object-cache entry of `(T, X)` `null` when a
store for `T` exists and creates no store otherwise, and leaves the slots and
stores of every other type and the entries of every other id of `T` as they were. -/
theorem onDirtyMessage_pair (s : Connector) (c : Cache) (m T X : String)
    (hc : s.cache = some c) (hm : jsSplit m '|' = [T, X]) :
    ∃ c2, (onDirtyMessage s m).cache = some c2 ∧
      c2.getIdsCaches.get T = some none ∧
      c2.aggregateCaches.get T = some none ∧
      c2.isAvailable T X = false ∧
      ((c.objectCache.get T).isSome → c2.rawEntry T X = some none) ∧
      (c.objectCache.get T = none → c2.objectCache = c.objectCache) ∧
      (∀ T2, T2 ≠ T →
        c2.getIdsCaches.get T2 = c.getIdsCaches.get T2 ∧
        c2.aggregateCaches.get T2 = c.aggregateCaches.get T2 ∧
        c2.objectCache.get T2 = c.objectCache.get T2) ∧
      (∀ X2, X2 ≠ X → c2.rawEntry T X2 = c.rawEntry T X2) := by
  refine ⟨c.onMessage m, by simp [onDirtyMessage, hc], ?_⟩
  rw [Cache.onMessage_pair c m T X hm]
  refine ⟨?_, ?_, ?_, ?_, ?_, ?_, ?_⟩
  · simp [Cache.setEntry_getIdsCaches, JsObj.get_set_same]
  · simp [Cache.setEntry_aggregateCaches, JsObj.get_set_same]
  · cases hs : c.objectCache.get T with
    | none => simp [Cache.isAvailable, Cache.entry, Cache.rawEntry, Cache.setEntry, hs]
    | some store =>
      simp [Cache.isAvailable, Cache.entry, Cache.rawEntry, Cache.setEntry, hs,
        JsObj.get_set_same]
  · intro hs
    exact Cache.rawEntry_setEntry_same _ T X none hs
  · intro hs
    simp [Cache.setEntry, hs]
  · intro T2 hT
    refine ⟨?_, ?_, ?_⟩
    · simp [Cache.setEntry_getIdsCaches, JsObj.get_set_other _ _ _ _ (Ne.symm hT)]
    · simp [Cache.setEntry_aggregateCaches, JsObj.get_set_other _ _ _ _ (Ne.symm hT)]
    · rw [Cache.objectCache_get_setEntry_other _ T X T2 none (Ne.symm hT)]
  · intro X2 hX
    rw [Cache.rawEntry_setEntry_other _ T X T X2 none (Or.inr hX)]
    rfl

/-- C11. A dirty message whose split on `|` does not give exactly two fields
is handled without error (the handler is a total function) and leaves the
connector, hence all three caches, exactly unchanged. -/
theorem onDirtyMessage_malformed (s : Connector) (m : String)
    (hm : (jsSplit m '|').length ≠ 2) :
    onDirtyMessage s m = s := by
  unfold onDirtyMessage
  cases hc : s.cache with
  | none => rfl
  | some c =>
    simp only [Cache.onMessage_other c m hm]
    cases s
    simp_all

theorem Connector.invalidate_frame (s : Connector) (T X : String) :
    (s.invalidate T X).running = s.running ∧ (s.invalidate T X).settled = s.settled ∧
    (s.invalidate T X).queue = s.queue ∧ (s.invalidate T X).getByIdQueue = s.getByIdQueue ∧
    (s.invalidate T X).promiseCount = s.promiseCount ∧
    (s.invalidate T X).getByIdPrimed = s.getByIdPrimed ∧
    (s.invalidate T X).scheduledFlushes = s.scheduledFlushes := by
  unfold Connector.invalidate
  cases s.cache with
  | none => simp
  | some c => by_cases ha : c.isAvailable T X = true <;> simp [ha]

theorem Connector.invalidate_spec (s : Connector) (c : Cache) (T X : String)
    (hc : s.cache = some c) :
    ∃ c2, (s.invalidate T X).cache = some c2 ∧ c2.isAvailable T X = false ∧
      ∀ T2 X2, (T2 ≠ T ∨ X2 ≠ X) → c2.rawEntry T2 X2 = c.rawEntry T2 X2 := by
  have h1 := Connector.cached_invalidate_same s T X
  unfold Connector.invalidate at *
  by_cases ha : c.isAvailable T X = true
  · refine ⟨c.setEntry T X none, by simp [hc, ha], ?_, ?_⟩
    · simp [hc, ha, Connector.cached] at h1
      simp [Cache.isAvailable, h1]
    · intro T2 X2 h
      exact Cache.rawEntry_setEntry_other c T X T2 X2 none h
  · refine ⟨c, by simp [hc, ha], by simpa using ha, ?_⟩
    intro T2 X2 _
    rfl

theorem defer_cache (s : Connector) : (defer s).2.cache = s.cache := rfl

/-- C7. With the cache enabled, as soon as `update(T, object)` with
`object._id = X` (a non-empty string) or `destroy(T, X)` has returned its
promise, while the write is only waiting on the dispatcher (no request has been
issued, nothing has been settled), `isAvailable(T, X)` is falsy and the
object-cache entry of every other id and of every other entity type is what it
was before the call. -/
theorem update_destroy_invalidate (s : Connector) (c : Cache) (T X : String) (object : Value)
    (hc : s.cache = some c) (hid : object.prop? "_id" = some (.str X)) (hX : X ≠ "") :
    (∃ p s2 c2, update s T object = some (.promise p, s2) ∧ s2.cache = some c2 ∧
      c2.isAvailable T X = false ∧ s2.running = s.running ∧ s2.settled = s.settled ∧
      (∃ task, s2.queue = s.queue ++ [task] ∧ task.deferred = p) ∧
      ∀ T2 X2, (T2 ≠ T ∨ X2 ≠ X) → c2.rawEntry T2 X2 = c.rawEntry T2 X2) ∧
    (∃ p s2 c2, destroy s T (.str X) = (.promise p, s2) ∧ s2.cache = some c2 ∧
      c2.isAvailable T X = false ∧ s2.running = s.running ∧ s2.settled = s.settled ∧
      (∃ task, s2.queue = s.queue ++ [task] ∧ task.deferred = p) ∧
      ∀ T2 X2, (T2 ≠ T ∨ X2 ≠ X) → c2.rawEntry T2 X2 = c.rawEntry T2 X2) := by
  have htr : (Value.str X).truthy = true := by simp [Value.truthy, hX]
  have hstr : (Value.str X).toStr = X := by simp [Value.toStr]
  obtain ⟨c2, h1, h2, h3⟩ := Connector.invalidate_spec (defer s).2 c T X hc
  have hf := Connector.invalidate_frame (defer s).2 T X
  constructor
  · refine ⟨s.promiseCount, push ((defer s).2.invalidate T X)
      { deferred := s.promiseCount
        url := s.serviceUrl ++ T ++ ".json/crud" ++
          (if (if (Value.str X).truthy &&
              (((Value.str X).prop? "length").getD .undefined).gtZero then "PUT" else "POST")
            = "PUT" then "/" ++ X else "")
        method := if (Value.str X).truthy &&
              (((Value.str X).prop? "length").getD .undefined).gtZero then "PUT" else "POST"
        body := some object
        query := .undefined }, c2, ?_, ?_, h2, ?_, ?_, ?_, h3⟩
    · simp only [update, hid, htr, hstr, if_true]
      rfl
    · exact h1
    · exact hf.1
    · exact hf.2.1
    · exact ⟨_, by simp only [push]; rw [hf.2.2.1]; rfl, rfl⟩
  · refine ⟨s.promiseCount, push ((defer s).2.invalidate T X)
      { deferred := s.promiseCount
        url := s.serviceUrl ++ T ++ ".json/crud/" ++ X
        method := "DELETE"
        body := none
        query := .undefined }, c2, ?_, ?_, h2, ?_, ?_, ?_, h3⟩
    · simp only [destroy, hstr]
      rfl
    · exact h1
    · exact hf.1
    · exact hf.2.1
    · exact ⟨_, by simp only [push]; rw [hf.2.2.1]; rfl, rfl⟩

/-! ## Keys of a dictionary -/

theorem JsObj.mem_keys {α : Type} (o : JsObj α) (k : String) :
    k ∈ JsObj.keys o ↔ (o.get k).isSome := by
  induction o with
  | nil => simp [JsObj.keys, JsObj.get]
  | cons p rest ih =>
    obtain ⟨k1, v1⟩ := p
    by_cases h : k1 = k
    · subst h
      simp [JsObj.keys, JsObj.get]
    · have h2 : ¬ k = k1 := fun e => h e.symm
      simp [JsObj.keys, JsObj.get, h, h2, ih]

theorem JsObj.nodup_keys {α : Type} (o : JsObj α) : (JsObj.keys o).Nodup := by
  induction o with
  | nil => simp [JsObj.keys]
  | cons p rest ih =>
    obtain ⟨k1, v1⟩ := p
    simp only [JsObj.keys, List.nodup_cons]
    exact ⟨by simp, ih.filter _⟩

theorem JsObj.keys_of_nodup {α : Type} (o : JsObj α) (h : (o.map Prod.fst).Nodup) :
    JsObj.keys o = o.map Prod.fst := by
  induction o with
  | nil => rfl
  | cons p rest ih =>
    obtain ⟨k1, v1⟩ := p
    simp only [List.map_cons, List.nodup_cons] at h
    simp only [JsObj.keys, List.map_cons, ih h.2]
    congr 1
    rw [List.filter_eq_self]
    intro x hx
    have : x ≠ k1 := fun e => h.1 (e ▸ hx)
    simpa using this

theorem JsObj.get_eq_none_of_not_mem {α : Type} (o : JsObj α) (k : String)
    (h : k ∉ o.map Prod.fst) : o.get k = none := by
  induction o with
  | nil => rfl
  | cons p rest ih =>
    obtain ⟨k1, v1⟩ := p
    simp only [List.map_cons, List.mem_cons, not_or] at h
    have h1 : ¬ k1 = k := fun e => h.1 e.symm
    simp [JsObj.get, h1, ih h.2]

theorem JsObj.set_of_not_mem {α : Type} (o : JsObj α) (k : String) (v : α)
    (h : k ∉ o.map Prod.fst) : o.set k v = o ++ [(k, v)] := by
  induction o with
  | nil => rfl
  | cons p rest ih =>
    obtain ⟨k1, v1⟩ := p
    simp only [List.map_cons, List.mem_cons, not_or] at h
    have h1 : ¬ k1 = k := fun e => h.1 e.symm
    simp [JsObj.set, h1, ih h.2]

theorem JsObj.mem_jsKeys {α : Type} (o : JsObj α) (k : String) :
    k ∈ JsObj.jsKeys o ↔ (o.get k).isSome := by
  rw [← JsObj.mem_keys]
  unfold JsObj.jsKeys
  rw [List.mem_append, (List.perm_insertionSort _ _).mem_iff]
  simp only [List.mem_filter]
  cases h : arrayIndex? k <;> simp

theorem JsObj.nodup_jsKeys {α : Type} (o : JsObj α) : (JsObj.jsKeys o).Nodup := by
  unfold JsObj.jsKeys
  rw [List.nodup_append]
  refine ⟨?_, (JsObj.nodup_keys o).filter _, ?_⟩
  · rw [(List.perm_insertionSort _ _).nodup_iff]
    exact (JsObj.nodup_keys o).filter _
  · intro a ha hb
    rw [(List.perm_insertionSort _ _).mem_iff] at ha
    simp only [List.mem_filter] at ha hb
    cases h : arrayIndex? a <;> simp [h] at ha hb

theorem arrayIndex?_of_length (k : String) (h : jsLength k = 24) : arrayIndex? k = none := by
  simp [arrayIndex?, h]

theorem JsObj.jsKeys_of_ids {α : Type} (o : JsObj α) (h : (o.map Prod.fst).Nodup)
    (hv : ∀ k ∈ o.map Prod.fst, jsLength k = 24) :
    JsObj.jsKeys o = o.map Prod.fst := by
  unfold JsObj.jsKeys
  rw [JsObj.keys_of_nodup o h]
  have h1 : (o.map Prod.fst).filter (fun k => (arrayIndex? k).isSome) = [] := by
    rw [List.filter_eq_nil_iff]
    intro k hk
    simp [arrayIndex?_of_length k (hv k hk)]
  have h2 : (o.map Prod.fst).filter (fun k => (arrayIndex? k).isNone) = o.map Prod.fst := by
    rw [List.filter_eq_self]
    intro k hk
    simp [arrayIndex?_of_length k (hv k hk)]
  rw [h1, h2]
  simp

/-! ## Urls -/

theorem url_middle_inj (a b c d : String) (h : a ++ b ++ d = a ++ c ++ d) : b = c := by
  have h1 := congrArg String.data h
  simp only [String.data_append] at h1
  have h2 := List.append_cancel_right h1
  have h3 := List.append_cancel_left h2
  exact String.ext h3

/-! ## Point lookups -/

/-- Window map after `if (getByIdQueue[T] === undefined) getByIdQueue[T] = {}`. -/
theorem ensure_window (q : JsObj (JsObj Nat)) (T : String) :
    (if (q.get T).isNone then q.set T [] else q).get T = some ((q.get T).getD []) := by
  cases h : q.get T with
  | none => simp [JsObj.get_set_same]
  | some w => simp [h]

theorem Cache.entry_putObject_same (c : Cache) (T X : String) (d : Nat) :
    (c.putObject T X d).entry T X = some d := by
  unfold Cache.putObject Cache.entry
  cases h : c.objectCache.get T with
  | none =>
    simp only [Option.isNone_none, if_true]
    rw [Cache.rawEntry_setEntry_same _ T X (some d) (by simp [JsObj.get_set_same])]
    rfl
  | some store =>
    simp only [Option.isNone_some]
    rw [Cache.rawEntry_setEntry_same _ T X (some d) (by simp [h])]
    rfl

theorem Cache.entry_putObject_other (c : Cache) (T X X2 : String) (d : Nat) (h : X2 ≠ X) :
    (c.putObject T X d).entry T X2 = c.entry T X2 := by
  unfold Cache.putObject Cache.entry
  cases hs : c.objectCache.get T with
  | none =>
    simp only [Option.isNone_none, if_true]
    rw [Cache.rawEntry_setEntry_other _ T X T X2 (some d) (Or.inr h)]
    simp [Cache.rawEntry, hs, JsObj.get_set_same, JsObj.get]
  | some store =>
    simp only [Option.isNone_some]
    rw [Cache.rawEntry_setEntry_other _ T X T X2 (some d) (Or.inr h)]
    rfl

theorem getById_miss (s : Connector) (T X : String) (params versionId : Value)
    (hX : jsLength X = 24) (hp : wantsFields params = false) (hv : versionId.truthy = false)
    (hcache : s.cached T X = none) (hw : ((s.getByIdQueue.get T).getD []).get X = none) :
    getById s T (.str X) params versionId = (.promise s.promiseCount, missState s T X) := by
  have he := ensure_window s.getByIdQueue T
  simp only [getById, validObjectId, hX, hp, hv, hcache, if_true, Bool.or_self, he,
    Option.getD_some, hw]
  unfold missState
  cases hprimed : s.getByIdPrimed <;> simp [hprimed]

theorem getById_pending (s : Connector) (T X : String) (d : Nat) (params versionId : Value)
    (hX : jsLength X = 24) (hp : wantsFields params = false) (hv : versionId.truthy = false)
    (hcache : s.cached T X = none) (hw : ((s.getByIdQueue.get T).getD []).get X = some d) :
    getById s T (.str X) params versionId = (.promise d, s) := by
  have he := ensure_window s.getByIdQueue T
  have hq : (if (s.getByIdQueue.get T).isNone then s.getByIdQueue.set T [] else s.getByIdQueue)
      = s.getByIdQueue := by
    cases h : s.getByIdQueue.get T with
    | none => simp [h, JsObj.get] at hw
    | some w => simp
  simp only [getById, validObjectId, hX, hp, hv, hcache, if_true, Bool.or_self, he,
    Option.getD_some, hw]
  rw [hq]
  simp

theorem missState_window (s : Connector) (T X : String) :
    (missState s T X).getByIdQueue.get T
      = some (((s.getByIdQueue.get T).getD []).set X s.promiseCount) := by
  simp [missState, JsObj.get_set_same]

theorem missState_cached (s : Connector) (c : Cache) (T X : String) (hc : s.cache = some c) :
    (missState s T X).cached T X = some s.promiseCount := by
  simp [missState, Connector.cached, hc, Cache.entry_putObject_same]

theorem missState_cached_none (s : Connector) (T X : String) (hc : s.cache = none) :
    (missState s T X).cached T X = none := by
  simp [missState, Connector.cached, hc]

theorem JsObj.count_keys {α : Type} (o : JsObj α) (k : String) (h : (o.get k).isSome) :
    (JsObj.keys o).count k = 1 :=
  List.count_eq_one_of_mem (JsObj.nodup_keys o) ((JsObj.mem_keys o k).2 h)

/-- C2 (amended). For every state, entity type `T` and 24-character id `X`
requested without `fields` and `versionId`, two `getById(T, X)` calls with no
flush in between return the same promise and the second call changes nothing
(no new entry, no further flush armed).  When the first call is not answered
from the object cache, the window of `T` holds after both calls exactly one
pending lookup for `X`, the one whose promise was returned. -/
theorem getById_twice (s : Connector) (T X : String) (params versionId : Value)
    (hX : jsLength X = 24) (hp : wantsFields params = false) (hv : versionId.truthy = false) :
    (getById (getById s T (.str X) params versionId).2 T (.str X) params versionId).1
        = (getById s T (.str X) params versionId).1 ∧
    (getById (getById s T (.str X) params versionId).2 T (.str X) params versionId).2
        = (getById s T (.str X) params versionId).2 ∧
    (getById (getById s T (.str X) params versionId).2 T (.str X) params versionId).2.scheduledFlushes
        = (getById s T (.str X) params versionId).2.scheduledFlushes ∧
    (s.cached T X = none →
      ∃ d w, (getById s T (.str X) params versionId).1 = .promise d ∧
        (getById s T (.str X) params versionId).2.getByIdQueue.get T = some w ∧
        w.get X = some d ∧ (JsObj.keys w).count X = 1) := by
  cases hcache : s.cached T X with
  | some P =>
    have h1 := getById_hit s T X P params versionId hX hp hv hcache
    simp [h1]
  | none =>
    cases hw : ((s.getByIdQueue.get T).getD []).get X with
    | some d =>
      have h1 := getById_pending s T X d params versionId hX hp hv hcache hw
      have hq : s.getByIdQueue.get T = some ((s.getByIdQueue.get T).getD []) := by
        cases h : s.getByIdQueue.get T with
        | none => simp [h, JsObj.get] at hw
        | some w => simp
      rw [h1]
      simp only [h1, true_and]
      intro _
      exact ⟨d, _, rfl, hq, hw, JsObj.count_keys _ X (by simp [hw])⟩
    | none =>
      have h1 := getById_miss s T X params versionId hX hp hv hcache hw
      have hwin := missState_window s T X
      have h2 : getById (missState s T X) T (.str X) params versionId
          = (.promise s.promiseCount, missState s T X) := by
        cases hc : s.cache with
        | some c =>
          exact getById_hit _ T X _ params versionId hX hp hv
            (missState_cached s c T X hc)
        | none =>
          exact getById_pending _ T X _ params versionId hX hp hv
            (missState_cached_none s T X hc) (by simp [hwin, JsObj.get_set_same])
      rw [h1]
      simp only [h2, true_and]
      intro _
      exact ⟨s.promiseCount, _, rfl, hwin, JsObj.get_set_same _ _ _,
        JsObj.count_keys _ X (by simp [JsObj.get_set_same])⟩

/-- Witness of C2 (amended) on the caching connector. -/
theorem getById_twice_witness :
    (getById (getById cachingConnector "Person" (.str sampleId) .undefined .undefined).2
        "Person" (.str sampleId) .undefined .undefined).1
      = (getById cachingConnector "Person" (.str sampleId) .undefined .undefined).1 :=
  (getById_twice cachingConnector "Person" sampleId .undefined .undefined
    (by decide) (by decide) (by decide)).1

/-- Counterexample to C2 as stated: once the lookup of `sampleId` has been
flushed and the object cache holds its promise, two `getById` calls return that
promise while the window of the type holds no pending lookup for the id. -/
theorem getById_twice_cached_counterexample :
    flushed.cached "Person" sampleId = some 0 ∧
    (getById flushed "Person" (.str sampleId) .undefined .undefined).1 = .promise 0 ∧
    (getById (getById flushed "Person" (.str sampleId) .undefined .undefined).2
      "Person" (.str sampleId) .undefined .undefined).1 = .promise 0 ∧
    (getById (getById flushed "Person" (.str sampleId) .undefined .undefined).2
      "Person" (.str sampleId) .undefined .undefined).2.getByIdQueue.get "Person" = some [] := by
  decide

theorem jsLength_ne_empty (X : String) (h : jsLength X = 24) : X ≠ "" := by
  intro e
  subst e
  simp [jsLength] at h

theorem update_string_id (s : Connector) (T X : String) (object : Value)
    (hid : object.prop? "_id" = some (.str X)) (hX : X ≠ "") :
    ∃ task, update s T object
      = some (.promise s.promiseCount, push ((defer s).2.invalidate T X) task) ∧
      task.deferred = s.promiseCount := by
  have htr : (Value.str X).truthy = true := by simp [Value.truthy, hX]
  have hstr : (Value.str X).toStr = X := by simp [Value.toStr]
  refine ⟨Task.mk s.promiseCount
    (s.serviceUrl ++ T ++ ".json/crud" ++
      (if (if (Value.str X).truthy &&
          (((Value.str X).prop? "length").getD .undefined).gtZero then "PUT" else "POST")
        = "PUT" then "/" ++ X else ""))
    (if (Value.str X).truthy &&
          (((Value.str X).prop? "length").getD .undefined).gtZero then "PUT" else "POST")
    (some object) .undefined, ?_, rfl⟩
  simp only [update, hid, htr, hstr, if_true]
  rfl

/-- C8 (amended). With the cache enabled, for every state in which the object
cache holds the promise `P` for `(T, X)` (a promise created earlier, so its
number is below the promise counter) and in which no lookup for `X` is pending
in the current window of `T`: `update(T, object)` with `object._id = X` followed
immediately by `getById(T, X)` returns a promise different from `P`, namely the
promise of a pending lookup created after the update. -/
theorem update_then_getById (s : Connector) (T X : String) (P : Nat)
    (object params versionId : Value)
    (hX : jsLength X = 24) (hid : object.prop? "_id" = some (.str X))
    (hP : s.cached T X = some P) (hfresh : P < s.promiseCount)
    (hwin : ((s.getByIdQueue.get T).getD []).get X = none)
    (hp : wantsFields params = false) (hv : versionId.truthy = false) :
    ∃ s1, update s T object = some (.promise s.promiseCount, s1) ∧
      getById s1 T (.str X) params versionId
        = (.promise (s.promiseCount + 1), missState s1 T X) ∧
      s.promiseCount + 1 ≠ P ∧
      (missState s1 T X).getByIdQueue.get T
        = some (((s.getByIdQueue.get T).getD []).set X (s.promiseCount + 1)) := by
  have _ := hP
  obtain ⟨task, hu, _⟩ := update_string_id s T X object hid (jsLength_ne_empty X hX)
  have hf := Connector.invalidate_frame (defer s).2 T X
  have hcached : (push ((defer s).2.invalidate T X) task).cached T X = none :=
    Connector.cached_invalidate_same (defer s).2 T X
  have hq : (push ((defer s).2.invalidate T X) task).getByIdQueue = s.getByIdQueue := hf.2.2.2.1
  have hn : (push ((defer s).2.invalidate T X) task).promiseCount = s.promiseCount + 1 :=
    hf.2.2.2.2.1
  refine ⟨_, hu, ?_, by omega, ?_⟩
  · rw [getById_miss _ T X params versionId hX hp hv hcached (by rw [hq]; exact hwin), hn]
  · rw [missState_window, hq, hn]

/-- Witness of C8 (amended): the lookup of `sampleId` has been flushed, its
promise `0` is cached, and the window is empty. -/
theorem update_then_getById_witness :
    ∃ s1, update flushed "Person" (.obj (.cons "_id" (.str sampleId) .nil))
        = some (.promise flushed.promiseCount, s1) ∧
      getById s1 "Person" (.str sampleId) .undefined .undefined
        = (.promise (flushed.promiseCount + 1), missState s1 "Person" sampleId) ∧
      flushed.promiseCount + 1 ≠ 0 ∧
      (missState s1 "Person" sampleId).getByIdQueue.get "Person"
        = some (((flushed.getByIdQueue.get "Person").getD []).set sampleId
            (flushed.promiseCount + 1)) :=
  update_then_getById flushed "Person" sampleId 0 (.obj (.cons "_id" (.str sampleId) .nil))
    .undefined .undefined (by decide) (by decide) (by decide) (by decide) (by decide)
    (by decide) (by decide)

/-- Counterexample to C8 as stated: while the lookup of `sampleId` is still
pending in the window (state `lookedUp`, object cache holding promise `0`),
`update` followed by `getById` returns that same promise `0`. -/
theorem update_then_getById_pending_counterexample :
    lookedUp.cached "Person" sampleId = some 0 ∧
    (update lookedUp "Person" (.obj (.cons "_id" (.str sampleId) .nil))).map
      (fun r => (getById r.2 "Person" (.str sampleId) .undefined .undefined).1)
      = some (.promise 0) := by
  decide

/-! ## Flushing the windows -/

theorem thenOn_frame (s : Connector) (c : Completion) (cb : Callback) :
    (thenOn s c cb).2.queue = s.queue ∧ (thenOn s c cb).2.getByIdQueue = s.getByIdQueue ∧
    (thenOn s c cb).2.serviceUrl = s.serviceUrl ∧ (thenOn s c cb).2.cache = s.cache ∧
    (thenOn s c cb).2.settled = s.settled ∧
    (thenOn s c cb).2.scheduledFlushes = s.scheduledFlushes ∧
    (thenOn s c cb).2.getByIdPrimed = s.getByIdPrimed ∧
    (thenOn s c cb).2.running = s.running := by
  unfold thenOn
  dsimp only
  split <;> simp

/-- The search task that `spoolQueue` pushes for a window. -/
theorem spoolOne_some (st : Connector) (S : String) (w : JsObj Nat)
    (h : st.getByIdQueue.get S = some w) :
    (spoolOne st S).queue = st.queue ++
      [flushTask st.serviceUrl S st.promiseCount w.jsKeys] ∧
    (spoolOne st S).getByIdQueue = st.getByIdQueue.set S [] ∧
    (spoolOne st S).serviceUrl = st.serviceUrl ∧
    (spoolOne st S).cache = st.cache ∧
    (spoolOne st S).settled = st.settled := by
  simp only [spoolOne, h]
  refine ⟨?_, ?_, ?_, ?_, ?_⟩
  · rw [(thenOn_frame _ _ _).1]
    rfl
  · rw [(thenOn_frame _ _ _).2.1]
    rfl
  · rw [(thenOn_frame _ _ _).2.2.1]
    rfl
  · rw [(thenOn_frame _ _ _).2.2.2.1]
    rfl
  · rw [(thenOn_frame _ _ _).2.2.2.2.1]
    rfl

theorem spoolOne_none (st : Connector) (S : String) (h : st.getByIdQueue.get S = none) :
    spoolOne st S = st := by
  simp [spoolOne, h]

/-- Tasks pushed by the `forEach` of `spoolQueue` over a list of entity types:
none for the url of a type that is not listed, exactly one, carrying the keys of
its window, for a type listed once. -/
theorem spool_fold (T : String) (ks : List String) :
    ∀ st : Connector, ∃ new : List Task,
      (ks.foldl spoolOne st).queue = st.queue ++ new ∧
      (ks.foldl spoolOne st).serviceUrl = st.serviceUrl ∧
      (T ∉ ks → new.filter (fun t => decide (t.url = st.serviceUrl ++ T ++ ".json/search")) = []) ∧
      (ks.Nodup → T ∈ ks → ∀ w, st.getByIdQueue.get T = some w →
        ∃ d, new.filter (fun t => decide (t.url = st.serviceUrl ++ T ++ ".json/search")) =
          [flushTask st.serviceUrl T d w.jsKeys]) := by
  induction ks with
  | nil =>
    intro st
    exact ⟨[], by simp, rfl, by simp, by simp⟩
  | cons S rest ih =>
    intro st
    simp only [List.foldl_cons]
    obtain ⟨new1, hq1, hu1, hnot1, hin1⟩ := ih (spoolOne st S)
    cases hS : st.getByIdQueue.get S with
    | none =>
      rw [spoolOne_none st S hS] at hq1 hu1 hnot1 hin1 ⊢
      refine ⟨new1, hq1, hu1, ?_, ?_⟩
      · intro hT
        exact hnot1 (fun h => hT (List.mem_cons_of_mem _ h))
      · intro hnd hT w hw
        have hne : S ≠ T := by
          intro e
          subst e
          rw [hS] at hw
          exact absurd hw (by simp)
        rcases List.mem_cons.1 hT with h | h
        · exact absurd h.symm hne
        · exact hin1 (List.nodup_cons.1 hnd).2 h w hw
    | some wS =>
      obtain ⟨hq, hg, hu, _, _⟩ := spoolOne_some st S wS hS
      rw [hu] at hnot1 hin1
      refine ⟨flushTask st.serviceUrl S st.promiseCount wS.jsKeys :: new1, ?_, ?_, ?_, ?_⟩
      · rw [hq1, hq]
        simp
      · rw [hu1, hu]
      · intro hT
        have hne : S ≠ T := fun e => hT (e ▸ List.mem_cons_self _ _)
        have hurl : ¬ (st.serviceUrl ++ S ++ ".json/search" = st.serviceUrl ++ T ++ ".json/search") :=
          fun e => hne (url_middle_inj _ _ _ _ e)
        rw [List.filter_cons_of_neg (by simpa [flushTask] using hurl)]
        exact hnot1 (fun h => hT (List.mem_cons_of_mem _ h))
      · intro hnd hT w hw
        by_cases hne : S = T
        · subst hne
          rw [hS] at hw
          cases hw
          rw [List.filter_cons_of_pos (by simp [flushTask]), hnot1 (List.nodup_cons.1 hnd).1]
          exact ⟨_, rfl⟩
        · have hurl : ¬ (st.serviceUrl ++ S ++ ".json/search"
              = st.serviceUrl ++ T ++ ".json/search") :=
            fun e => hne (url_middle_inj _ _ _ _ e)
          rw [List.filter_cons_of_neg (by simpa [flushTask] using hurl)]
          rcases List.mem_cons.1 hT with h | h
          · exact absurd h.symm hne
          · exact hin1 (List.nodup_cons.1 hnd).2 h w
              (by rw [hg, JsObj.get_set_other _ _ _ _ hne]; exact hw)

theorem missState_get_other (s : Connector) (T X S : String) (h : T ≠ S) :
    (missState s T X).getByIdQueue.get S = s.getByIdQueue.get S := by
  simp only [missState]
  rw [JsObj.get_set_other _ _ _ _ h]
  cases hq : s.getByIdQueue.get T with
  | none => simp [JsObj.get_set_other _ _ _ _ h]
  | some w => simp

theorem missState_cached_other (s : Connector) (T X X2 : String) (h : X2 ≠ X) :
    (missState s T X).cached T X2 = s.cached T X2 := by
  simp only [missState, Connector.cached]
  cases hc : s.cache with
  | none => rfl
  | some c => simp [Cache.entry_putObject_other c T X X2 _ h]

/-- Lookups of distinct ids, none of them cached, issued one after the other:
every id goes to the window of the type, in request order, nothing is pushed on
the dispatcher and the flush is armed by the first lookup only. -/
theorem getByIdEach_miss (T : String) (params : Value) (hp : wantsFields params = false) :
    ∀ (ids : List String) (st : Connector) (pre : List String),
      (pre ++ ids).Nodup → (∀ X ∈ ids, jsLength X = 24) →
      (∀ X ∈ ids, st.cached T X = none) →
      ((st.getByIdQueue.get T).getD []).map Prod.fst = pre →
      (((getByIdEach T params (ids.map Value.str) st).2.getByIdQueue.get T).getD []).map Prod.fst
          = pre ++ ids ∧
      (ids ≠ [] → ((getByIdEach T params (ids.map Value.str) st).2.getByIdQueue.get T).isSome) ∧
      (getByIdEach T params (ids.map Value.str) st).2.queue = st.queue ∧
      (getByIdEach T params (ids.map Value.str) st).2.serviceUrl = st.serviceUrl ∧
      (ids ≠ [] → (getByIdEach T params (ids.map Value.str) st).2.getByIdPrimed = true) ∧
      (ids ≠ [] → (getByIdEach T params (ids.map Value.str) st).2.scheduledFlushes
          = if st.getByIdPrimed then st.scheduledFlushes else st.scheduledFlushes + 1) := by
  intro ids
  induction ids with
  | nil =>
    intro st pre _ _ _ hw
    simp [getByIdEach, hw]
  | cons X rest ih =>
    intro st pre hnd hval hmiss hw
    have hXpre : X ∉ pre := by
      intro h
      have := (List.nodup_append.1 hnd).2.2
      exact this h (List.mem_cons_self _ _)
    have hget : ((st.getByIdQueue.get T).getD []).get X = none :=
      JsObj.get_eq_none_of_not_mem _ X (by rw [hw]; exact hXpre)
    have h1 := getById_miss st T X params .undefined (hval X (List.mem_cons_self _ _)) hp rfl
      (hmiss X (List.mem_cons_self _ _)) hget
    have hnd2 : ((pre ++ [X]) ++ rest).Nodup := by simpa using hnd
    have hXrest : X ∉ rest := by
      have := (List.nodup_append.1 hnd).2.1
      exact (List.nodup_cons.1 this).1
    have hw2 : (((missState st T X).getByIdQueue.get T).getD []).map Prod.fst = pre ++ [X] := by
      rw [missState_window, Option.getD_some,
        JsObj.set_of_not_mem _ X _ (by rw [hw]; exact hXpre)]
      simp [hw]
    obtain ⟨r1, r2, r3, r4, r5, r6⟩ := ih (missState st T X) (pre ++ [X]) hnd2
      (fun Y hY => hval Y (List.mem_cons_of_mem _ hY))
      (fun Y hY => by
        rw [missState_cached_other st T X Y (fun e => hXrest (e ▸ hY))]
        exact hmiss Y (List.mem_cons_of_mem _ hY))
      hw2
    simp only [List.map_cons, getByIdEach, h1]
    refine ⟨by simpa using r1, ?_, ?_, ?_, ?_, ?_⟩
    · intro _
      by_cases hr : rest = []
      · subst hr
        simp [getByIdEach, missState_window]
      · exact r2 hr
    · rw [r3]
      rfl
    · rw [r4]
      rfl
    · intro _
      by_cases hr : rest = []
      · subst hr
        simp [getByIdEach, missState]
      · exact r5 hr
    · intro _
      by_cases hr : rest = []
      · subst hr
        simp [getByIdEach, missState]
      · rw [r6 hr]
        simp [missState]

/-- C3 (amended). From a connector with no pending lookup and no armed flush,
`N >= 1` distinct valid ids of one type `T`, none of which has a valid entry in
the object cache, requested through `getById` (no fields, no versionId) in one
turn arm exactly one flush and push nothing; when the flush runs, exactly one
of the tasks it pushes is a search of `T`, and its selector is
`{_id: {$in: ids}}` with `ids` the requested ids, in request order. -/
theorem getById_batch_flush (s : Connector) (T : String) (ids : List String) (params : Value)
    (hp : wantsFields params = false) (hne : ids ≠ []) (hnd : ids.Nodup)
    (hval : ∀ X ∈ ids, jsLength X = 24)
    (hpend : ∀ S w, s.getByIdQueue.get S = some w → w = [])
    (hprimed : s.getByIdPrimed = false) (hsched : s.scheduledFlushes = 0)
    (hmiss : ∀ X ∈ ids, s.cached T X = none) :
    (getByIdEach T params (ids.map Value.str) s).2.scheduledFlushes = 1 ∧
    (getByIdEach T params (ids.map Value.str) s).2.queue = s.queue ∧
    ∃ new d, (runNextTick (getByIdEach T params (ids.map Value.str) s).2).queue = s.queue ++ new ∧
      new.filter (fun t => decide (t.url = s.serviceUrl ++ T ++ ".json/search"))
        = [flushTask s.serviceUrl T d ids] := by
  have hw0 : ((s.getByIdQueue.get T).getD []).map Prod.fst = [] := by
    cases h : s.getByIdQueue.get T with
    | none => rfl
    | some w => simp [hpend T w h]
  obtain ⟨r1, r2, r3, r4, _, r6⟩ :=
    getByIdEach_miss T params hp ids s [] (by simpa using hnd) hval hmiss hw0
  have hs1 : (getByIdEach T params (ids.map Value.str) s).2.scheduledFlushes = 1 := by
    rw [r6 hne, hprimed, hsched]
    rfl
  refine ⟨hs1, r3, ?_⟩
  obtain ⟨w, hw⟩ := Option.isSome_iff_exists.1 (r2 hne)
  have hkeys : w.map Prod.fst = ids := by
    have := r1
    rw [hw] at this
    simpa using this
  have hjs : w.jsKeys = ids :=
    (JsObj.jsKeys_of_ids w (by rw [hkeys]; exact hnd) (by rw [hkeys]; exact hval)).trans hkeys
  obtain ⟨new, hq, _, _, hin⟩ := spool_fold T
    (getByIdEach T params (ids.map Value.str) s).2.getByIdQueue.jsKeys
    { (getByIdEach T params (ids.map Value.str) s).2 with scheduledFlushes := 1 - 1 }
  obtain ⟨d, hd⟩ := hin (JsObj.nodup_jsKeys _) ((JsObj.mem_jsKeys _ T).2 (by simp [hw])) w hw
  refine ⟨new, d, ?_, ?_⟩
  · simp only [runNextTick, hs1, spoolQueue]
    simp only [show (1 : Nat) ≠ 0 from by decide, if_false]
    rw [← r3]
    exact hq
  · rw [← hjs, ← r4]
    exact hd

/-- Witness of C3 (amended): two ids requested on the caching connector. -/
theorem getById_batch_flush_witness :
    (getByIdEach "Person" .undefined ([sampleId, otherId].map Value.str)
      cachingConnector).2.scheduledFlushes = 1 ∧
    (getByIdEach "Person" .undefined ([sampleId, otherId].map Value.str)
      cachingConnector).2.queue = cachingConnector.queue ∧
    ∃ new d, (runNextTick (getByIdEach "Person" .undefined ([sampleId, otherId].map Value.str)
        cachingConnector).2).queue = cachingConnector.queue ++ new ∧
      new.filter (fun t => decide (t.url = cachingConnector.serviceUrl ++ "Person" ++ ".json/search"))
        = [flushTask cachingConnector.serviceUrl "Person" d [sampleId, otherId]] :=
  getById_batch_flush cachingConnector "Person" [sampleId, otherId] .undefined
    (by decide) (by decide) (by decide) (by decide)
    (by intro S w h; simp [cachingConnector, enableCache, plainConnector, Connector.create,
      JsObj.get] at h)
    (by decide) (by decide) (by decide)

/-- Counterexample to C3 as stated: in the state `flushed` no lookup is pending
and no flush is armed, but the object cache holds the promise of `sampleId`;
requesting that one id arms no flush, and running the next tick pushes no task. -/
theorem getById_batch_cached_counterexample :
    flushed.getByIdQueue = [("Person", [])] ∧ flushed.getByIdPrimed = false ∧
    flushed.scheduledFlushes = 0 ∧
    (getByIdEach "Person" .undefined [Value.str sampleId] flushed).2.scheduledFlushes = 0 ∧
    (runNextTick (getByIdEach "Person" .undefined [Value.str sampleId] flushed).2).queue
      = flushed.queue := by
  decide

/-! ## Settlements -/

theorem outcomeIn_append (l : List (Nat × Outcome)) (n m : Nat) (o : Outcome) :
    outcomeIn (l ++ [(n, o)]) m = (outcomeIn l m).or (if n = m then some o else none) := by
  induction l with
  | nil => simp [outcomeIn]
  | cons p rest ih =>
    obtain ⟨k, v⟩ := p
    by_cases h : k = m
    · simp [outcomeIn, h]
    · simp [outcomeIn, h, ih]

theorem settle_settled (s : Connector) (n : Nat) (o : Outcome) :
    (settle s n o).settled = if (s.outcome? n).isSome then s.settled else s.settled ++ [(n, o)] := by
  unfold settle
  split <;> rfl

theorem settle_outcome (s : Connector) (n m : Nat) (o : Outcome) :
    (settle s n o).outcome? m = (s.outcome? m).or (if n = m then some o else none) := by
  unfold Connector.outcome?
  rw [settle_settled]
  by_cases h : (s.outcome? n).isSome
  · simp only [h, if_true]
    by_cases hnm : n = m
    · subst hnm
      obtain ⟨v, hv⟩ := Option.isSome_iff_exists.1 h
      unfold Connector.outcome? at hv
      simp [hv]
    · simp [hnm]
  · simp only [h]
    exact outcomeIn_append _ _ _ _

theorem settle_frame (s : Connector) (n : Nat) (o : Outcome) :
    (settle s n o).getByIdQueue = s.getByIdQueue ∧ (settle s n o).cache = s.cache ∧
    (settle s n o).queue = s.queue ∧ (settle s n o).running = s.running ∧
    (settle s n o).arrays = s.arrays ∧
    (settle s n o).scheduledFlushes = s.scheduledFlushes := by
  unfold settle
  split <;> simp

/-- The outcome of the first call of a list that addresses promise `m`. -/
theorem settleAll_outcome (calls : List (Nat × Outcome)) :
    ∀ (s : Connector) (m : Nat),
      (settleAll s calls).outcome? m
        = (s.outcome? m).or ((calls.find? (fun c => decide (c.1 = m))).map Prod.snd) := by
  induction calls with
  | nil =>
    intro s m
    simp [settleAll]
  | cons c rest ih =>
    intro s m
    have hstep : settleAll s (c :: rest) = settleAll (settle s c.1 c.2) rest := rfl
    rw [hstep, ih, settle_outcome]
    by_cases h : c.1 = m
    · simp [h, List.find?_cons]
      cases s.outcome? m <;> simp
    · simp [h, List.find?_cons]

theorem settleAll_frame (calls : List (Nat × Outcome)) :
    ∀ s : Connector,
      (settleAll s calls).getByIdQueue = s.getByIdQueue ∧ (settleAll s calls).cache = s.cache ∧
      (settleAll s calls).queue = s.queue ∧ (settleAll s calls).running = s.running ∧
      (settleAll s calls).arrays = s.arrays ∧
      (settleAll s calls).scheduledFlushes = s.scheduledFlushes := by
  induction calls with
  | nil =>
    intro s
    simp [settleAll]
  | cons c rest ih =>
    intro s
    have hstep : settleAll s (c :: rest) = settleAll (settle s c.1 c.2) rest := rfl
    rw [hstep]
    obtain ⟨a1, a2, a3, a4, a5, a6⟩ := ih (settle s c.1 c.2)
    obtain ⟨b1, b2, b3, b4, b5, b6⟩ := settle_frame s c.1 c.2
    exact ⟨a1.trans b1, a2.trans b2, a3.trans b3, a4.trans b4, a5.trans b5, a6.trans b6⟩

theorem find_call (calls : List (Nat × Outcome)) (d : Nat) (v : Outcome)
    (hex : ∃ c ∈ calls, c.1 = d) (hall : ∀ c ∈ calls, c.1 = d → c.2 = v) :
    (calls.find? (fun c => decide (c.1 = d))).map Prod.snd = some v := by
  induction calls with
  | nil =>
    obtain ⟨c, hc, _⟩ := hex
    simp at hc
  | cons c rest ih =>
    by_cases h : c.1 = d
    · simp [List.find?_cons, h, hall c (List.mem_cons_self _ _) h]
    · simp only [List.find?_cons, h, decide_False]
      apply ih
      · obtain ⟨c2, hc2, hd⟩ := hex
        rcases List.mem_cons.1 hc2 with e | e
        · subst e
          exact absurd hd h
        · exact ⟨c2, e, hd⟩
      · intro c2 hc2 hd
        exact hall c2 (List.mem_cons_of_mem _ hc2) hd

theorem find_call_none (calls : List (Nat × Outcome)) (d : Nat)
    (hno : ∀ c ∈ calls, c.1 ≠ d) :
    (calls.find? (fun c => decide (c.1 = d))).map Prod.snd = none := by
  rw [Option.map_eq_none', List.find?_eq_none]
  intro c hc
  simpa using hno c hc

/-! ## Fan-out of a batched response -/

theorem Values.toList_ofList (l : List Value) : (Values.ofList l).toList = l := by
  induction l with
  | nil => rfl
  | cons v rest ih => simp [Values.ofList, Values.toList, ih]

theorem isDocument_prop (v : Value) (h : isDocument v) :
    ∃ id, v.prop? "_id" = some (.str id) ∧ v.truthy = true := by
  obtain ⟨ps, id, hv, hid⟩ := h
  subst hv
  exact ⟨id, by simp [Value.prop?, hid], rfl⟩

theorem lastWithId_mem (X : String) (objects : List Value) (o : Value)
    (h : lastWithId X objects = some o) : o ∈ objects := by
  induction objects with
  | nil => simp [lastWithId] at h
  | cons v rest ih =>
    simp only [lastWithId] at h
    cases hl : lastWithId X rest with
    | some later =>
      simp only [hl] at h
      cases h
      exact List.mem_cons_of_mem _ (ih hl)
    | none =>
      simp only [hl] at h
      split at h
      · cases h
        exact List.mem_cons_self _ _
      · cases h

/-- The `reduce` of `spoolQueue` on documents: every `_id` maps to the last
document carrying it. -/
theorem objectHashOf_documents (objects : List Value) (hdocs : ∀ o ∈ objects, isDocument o) :
    ∀ h0 : JsObj Value, ∃ hash, objectHashOf objects h0 = some hash ∧
      ∀ X, hash.get X = (lastWithId X objects).or (h0.get X) := by
  induction objects with
  | nil =>
    intro h0
    exact ⟨h0, rfl, by simp [lastWithId]⟩
  | cons v rest ih =>
    intro h0
    obtain ⟨id, hid, _⟩ := isDocument_prop v (hdocs v (List.mem_cons_self _ _))
    obtain ⟨hash, hh, hget⟩ := ih (fun o ho => hdocs o (List.mem_cons_of_mem _ ho))
      (h0.set id v)
    refine ⟨hash, by simp [objectHashOf, hid, Value.toStr, hh], ?_⟩
    intro X
    rw [hget X]
    simp only [lastWithId, hid]
    cases hl : lastWithId X rest with
    | some later => simp
    | none =>
      by_cases hx : id = X
      · subst hx
        simp [JsObj.get_set_same]
      · simp [JsObj.get_set_other _ _ _ _ hx, hx]

theorem spoolResolutions_eq (w : JsObj Nat) (objects : List Value) (hash : JsObj Value)
    (hdocs : ∀ o ∈ objects, isDocument o)
    (hget : ∀ X, hash.get X = lastWithId X objects) :
    spoolResolutions w hash
      = w.jsKeys.filterMap (fun X => (w.get X).map (fun d => (d, lookupOutcome objects X))) := by
  unfold spoolResolutions
  congr 1
  funext X
  congr 1
  funext d
  rw [hget X]
  unfold lookupOutcome
  cases hl : lastWithId X objects with
  | none => rfl
  | some o =>
    obtain ⟨_, _, ht⟩ := isDocument_prop o (hdocs o (lastWithId_mem X objects o hl))
    simp [ht]

theorem filterMap_keys_length (w : JsObj Nat) (f : String → Nat → Nat × Outcome) :
    (w.jsKeys.filterMap (fun X => (w.get X).map (f X))).length = w.jsKeys.length := by
  have h : ∀ l : List String, (∀ X ∈ l, (w.get X).isSome) →
      (l.filterMap (fun X => (w.get X).map (f X))).length = l.length := by
    intro l
    induction l with
    | nil => simp
    | cons X rest ih =>
      intro hl
      obtain ⟨d, hd⟩ := Option.isSome_iff_exists.1 (hl X (List.mem_cons_self _ _))
      simp [List.filterMap_cons, hd, ih (fun Y hY => hl Y (List.mem_cons_of_mem _ hY))]
  exact h _ (fun X hX => (JsObj.mem_jsKeys w X).1 hX)

/-- C4. Fan-out of a successful batched response made of documents: the
success handler of `spoolQueue` makes exactly one `resolve`/`reject` call per
pending lookup of the flushed window, in key order; the call for id `X` resolves
with the response object whose `_id` is `X` when there is one and rejects with
`<X> is not found` otherwise; and each lookup that was pending (and whose
deferred belongs to that id only) ends up settled with exactly that outcome,
whatever happens to its siblings in the batch. -/
theorem spool_fan_out (s : Connector) (w : JsObj Nat) (objects : List Value)
    (hdocs : ∀ o ∈ objects, isDocument o) :
    ∃ calls, runCallback s (.spoolThen w) (.fulfilled (.data (.arr (Values.ofList objects))))
        = (.returned (.data .undefined), settleAll s calls) ∧
      calls = w.jsKeys.filterMap (fun X => (w.get X).map (fun d => (d, lookupOutcome objects X))) ∧
      calls.length = w.jsKeys.length ∧
      ∀ X d, w.get X = some d → s.outcome? d = none → (∀ Y, w.get Y = some d → Y = X) →
        (settleAll s calls).outcome? d = some (lookupOutcome objects X) := by
  obtain ⟨hash, hh, hget⟩ := objectHashOf_documents objects hdocs []
  have hget2 : ∀ X, hash.get X = lastWithId X objects := by
    intro X
    rw [hget X]
    simp [JsObj.get]
  have hcalls := spoolResolutions_eq w objects hash hdocs hget2
  refine ⟨spoolResolutions w hash, ?_, hcalls, ?_, ?_⟩
  · simp [runCallback, Connector.items?, Values.toList_ofList, hh]
  · rw [hcalls]
    exact filterMap_keys_length w _
  · intro X d hX hpend hinj
    rw [settleAll_outcome, hpend, Option.none_or, hcalls]
    apply find_call
    · refine ⟨(d, lookupOutcome objects X), ?_, rfl⟩
      rw [List.mem_filterMap]
      exact ⟨X, (JsObj.mem_jsKeys w X).2 (by simp [hX]), by simp [hX]⟩
    · intro c hc hcd
      rw [List.mem_filterMap] at hc
      obtain ⟨Y, _, hY⟩ := hc
      cases hwY : w.get Y with
      | none => simp [hwY] at hY
      | some d2 =>
        simp only [hwY, Option.map_some', Option.some.injEq] at hY
        subst hY
        simp only at hcd
        subst hcd
        rw [hinj Y hwY]

/-! ## Failure of a batched query -/

theorem settle_pending (s : Connector) (n : Nat) (o : Outcome) (h : s.outcome? n = none) :
    ∃ more, (settle s n o).jobs
        = s.jobs ++ (s.reactions.filter (fun r => decide (r.1 = n))).map (fun r => (r.2, o)) ++ more ∧
      (settle s n o).reactions = s.reactions.filter (fun r => decide (r.1 ≠ n)) := by
  unfold settle
  rw [if_neg (by simp [h])]
  exact ⟨_, rfl, rfl⟩

theorem settle_reactions_mem (s : Connector) (n : Nat) (o : Outcome) (r : Nat × Reaction)
    (hr : r ∈ s.reactions) (hn : r.1 ≠ n) : r ∈ (settle s n o).reactions := by
  unfold settle
  split
  · exact hr
  · simp only [List.mem_filter]
    exact ⟨hr, by simpa using hn⟩

theorem settleAll_reactions_mem (calls : List (Nat × Outcome)) :
    ∀ (s : Connector) (r : Nat × Reaction), r ∈ s.reactions →
      (∀ c ∈ calls, c.1 ≠ r.1) → r ∈ (settleAll s calls).reactions := by
  induction calls with
  | nil =>
    intro s r hr _
    exact hr
  | cons c rest ih =>
    intro s r hr hno
    have hstep : settleAll s (c :: rest) = settleAll (settle s c.1 c.2) rest := rfl
    rw [hstep]
    apply ih
    · exact settle_reactions_mem s c.1 c.2 r hr
        (fun e => hno c (List.mem_cons_self _ _) e.symm)
    · intro c2 hc2
      exact hno c2 (List.mem_cons_of_mem _ hc2)

theorem spoolRejections_mem (w : JsObj Nat) (e : JsError) (c : Nat × Outcome)
    (hc : c ∈ spoolRejections w e) : c.2 = .rejected e ∧ ∃ X, w.get X = some c.1 := by
  unfold spoolRejections at hc
  rw [List.mem_filterMap] at hc
  obtain ⟨X, _, hX⟩ := hc
  cases hw : w.get X with
  | none => simp [hw] at hX
  | some d =>
    simp only [hw, Option.map_some', Option.some.injEq] at hX
    subst hX
    exact ⟨rfl, X, hw⟩

theorem spoolRejections_has (w : JsObj Nat) (e : JsError) (X : String) (d : Nat)
    (h : w.get X = some d) : (d, Outcome.rejected e) ∈ spoolRejections w e := by
  unfold spoolRejections
  rw [List.mem_filterMap]
  exact ⟨X, (JsObj.mem_jsKeys w X).2 (by simp [h]), by simp [h]⟩

/-- C5. Failure of the batched query of a flushed window: when the promise `D`
of the search task, on which the handlers of `spoolQueue` for the window `w` are
registered, is rejected with `e` and the failure handler runs, every lookup of
`w` that was pending is rejected with exactly `e`; every other promise keeps the
state it had (so no lookup of another window is settled), the coalescing
windows and the caches are unchanged, and the handlers registered for other
flushed windows stay registered. -/
theorem spool_failure (s : Connector) (D n : Nat) (w : JsObj Nat) (e : JsError)
    (hjobs : s.jobs = []) (hD : s.outcome? D = none)
    (hreg : s.reactions.filter (fun r => decide (r.1 = D))
      = [(D, { callback := .spoolThen w, derived := n })]) :
    (∀ X d, w.get X = some d → s.outcome? d = none →
      (runJob (settle s D (.rejected e))).outcome? d = some (.rejected e)) ∧
    (∀ d2, d2 ≠ D → d2 ≠ n → (∀ X, w.get X ≠ some d2) →
      (runJob (settle s D (.rejected e))).outcome? d2 = s.outcome? d2) ∧
    (runJob (settle s D (.rejected e))).getByIdQueue = s.getByIdQueue ∧
    (runJob (settle s D (.rejected e))).cache = s.cache ∧
    (∀ r ∈ s.reactions, r.1 ≠ D → r.1 ≠ n → (∀ X, w.get X ≠ some r.1) →
      r ∈ (runJob (settle s D (.rejected e))).reactions) := by
  obtain ⟨more, hj, _⟩ := settle_pending s D (.rejected e) hD
  rw [hjobs, hreg] at hj
  simp only [List.nil_append, List.map_cons, List.map_nil, List.singleton_append] at hj
  have hrun : runJob (settle s D (.rejected e))
      = settle (settleAll { settle s D (.rejected e) with jobs := more } (spoolRejections w e)) n
          (.fulfilled (.data .undefined)) := by
    simp only [runJob, hj, runCallback, finish]
  have hbase : ∀ m, ({ settle s D (.rejected e) with jobs := more } : Connector).outcome? m
      = (s.outcome? m).or (if D = m then some (.rejected e) else none) := by
    intro m
    exact settle_outcome s D m (.rejected e)
  have hfr := settleAll_frame (spoolRejections w e) { settle s D (.rejected e) with jobs := more }
  have hs := settle_frame s D (.rejected e)
  rw [hrun]
  refine ⟨?_, ?_, ?_, ?_, ?_⟩
  · intro X d hX hpend
    rw [settle_outcome, settleAll_outcome, hbase, hpend, Option.none_or]
    by_cases hDd : D = d
    · simp [hDd]
    · simp only [hDd, if_false, Option.none_or]
      rw [find_call _ d (.rejected e) ⟨_, spoolRejections_has w e X d hX, rfl⟩
        (fun c hc _ => (spoolRejections_mem w e c hc).1)]
      rfl
  · intro d2 h1 h2 h3
    rw [settle_outcome, settleAll_outcome, hbase]
    rw [find_call_none _ d2 (fun c hc hcd => by
      obtain ⟨_, X, hX⟩ := spoolRejections_mem w e c hc
      exact h3 X (hcd ▸ hX))]
    simp [Ne.symm h1, Ne.symm h2]
  · rw [(settle_frame _ _ _).1, hfr.1]
    exact hs.1
  · rw [(settle_frame _ _ _).2.1, hfr.2.1]
    exact hs.2.1
  · intro r hr h1 h2 h3
    apply settle_reactions_mem _ _ _ _ _ h2
    apply settleAll_reactions_mem
    · exact settle_reactions_mem s D _ r hr h1
    · intro c hc hcr
      obtain ⟨_, X, hX⟩ := spoolRejections_mem w e c hc
      exact h3 X (hcr ▸ hX)

/-- Witness of C4: a window with two lookups and a response that holds the
document of the first id only. -/
theorem spool_fan_out_witness :
    ∃ calls, runCallback flushed (.spoolThen [(sampleId, 0), (otherId, 7)])
        (.fulfilled (.data (.arr (Values.ofList [sampleDoc sampleId "Henk"]))))
        = (.returned (.data .undefined), settleAll flushed calls) ∧
      calls = (JsObj.jsKeys [(sampleId, 0), (otherId, 7)]).filterMap (fun X =>
        (JsObj.get [(sampleId, 0), (otherId, 7)] X).map
          (fun d => (d, lookupOutcome [sampleDoc sampleId "Henk"] X))) ∧
      calls.length = (JsObj.jsKeys [(sampleId, 0), (otherId, 7)]).length ∧
      ∀ X d, JsObj.get [(sampleId, 0), (otherId, 7)] X = some d → flushed.outcome? d = none →
        (∀ Y, JsObj.get [(sampleId, 0), (otherId, 7)] Y = some d → Y = X) →
        (settleAll flushed calls).outcome? d = some (lookupOutcome [sampleDoc sampleId "Henk"] X) :=
  spool_fan_out flushed [(sampleId, 0), (otherId, 7)] [sampleDoc sampleId "Henk"]
    (by
      intro o ho
      rw [List.mem_singleton] at ho
      subst ho
      exact ⟨_, sampleId, rfl, rfl⟩)

/-- Witness of C5 on the state `flushed`: the search task has promise `1`, its
handlers have the derived promise `2`, the window holds the lookup `0`. -/
theorem spool_failure_witness :
    (runJob (settle flushed 1 (.rejected (.error "boom")))).outcome? 0
      = some (.rejected (.error "boom")) :=
  (spool_failure flushed 1 2 [(sampleId, 0)] (.error "boom") (by decide) (by decide)
    (by decide)).1 sampleId 0 (by decide) (by decide)

/-- Witness of C6 on the state `lookedUp`. -/
theorem getById_cache_hit_witness :
    getById lookedUp "Person" (.str sampleId) .undefined .undefined = (.promise 0, lookedUp) :=
  (getById_cache_hit lookedUp "Person" sampleId 0 .undefined .undefined
    (by decide) (by decide) (by decide) (by decide)).1

/-- Witness of C7 on the state `lookedUp`. -/
theorem update_destroy_invalidate_witness :
    ∃ p s2 c2, update lookedUp "Person" (sampleDoc sampleId "Henk") = some (.promise p, s2) ∧
      s2.cache = some c2 ∧ c2.isAvailable "Person" sampleId = false ∧
      s2.running = lookedUp.running ∧ s2.settled = lookedUp.settled ∧
      (∃ task, s2.queue = lookedUp.queue ++ [task] ∧ task.deferred = p) ∧
      ∀ T2 X2, (T2 ≠ "Person" ∨ X2 ≠ sampleId) →
        c2.rawEntry T2 X2 = lookedUpCache.rawEntry T2 X2 :=
  (update_destroy_invalidate lookedUp lookedUpCache "Person" sampleId (sampleDoc sampleId "Henk")
    (by decide) (by decide) (by decide)).1

/-- Witness of C10 on the state `lookedUp`. -/
theorem onDirtyMessage_pair_witness :
    ∃ c2, (onDirtyMessage lookedUp "Person|52259f95dafd757b06002221").cache = some c2 ∧
      c2.getIdsCaches.get "Person" = some none ∧
      c2.aggregateCaches.get "Person" = some none ∧
      c2.isAvailable "Person" sampleId = false ∧
      ((lookedUpCache.objectCache.get "Person").isSome →
        c2.rawEntry "Person" sampleId = some none) ∧
      (lookedUpCache.objectCache.get "Person" = none →
        c2.objectCache = lookedUpCache.objectCache) ∧
      (∀ T2, T2 ≠ "Person" →
        c2.getIdsCaches.get T2 = lookedUpCache.getIdsCaches.get T2 ∧
        c2.aggregateCaches.get T2 = lookedUpCache.aggregateCaches.get T2 ∧
        c2.objectCache.get T2 = lookedUpCache.objectCache.get T2) ∧
      (∀ X2, X2 ≠ sampleId → c2.rawEntry "Person" X2 = lookedUpCache.rawEntry "Person" X2) :=
  onDirtyMessage_pair lookedUp lookedUpCache "Person|52259f95dafd757b06002221" "Person" sampleId
    (by decide) (by decide)

/-- Witness of C11: a message without delimiter and one with two delimiters. -/
theorem onDirtyMessage_malformed_witness :
    onDirtyMessage lookedUp "Person" = lookedUp ∧ onDirtyMessage lookedUp "a|b|c" = lookedUp :=
  ⟨onDirtyMessage_malformed lookedUp "Person" (by decide),
   onDirtyMessage_malformed lookedUp "a|b|c" (by decide)⟩

/-! ## Bulk lookups -/

theorem collectInspections_values (outs : List Outcome) :
    (collectInspections outs).1 = outs.filterMap Outcome.value? := by
  induction outs with
  | nil => rfl
  | cons o rest ih =>
    cases o with
    | fulfilled r => simp [collectInspections, Outcome.value?, ih]
    | rejected e => simp [collectInspections, Outcome.value?, ih]

theorem collectInspections_error (outs : List Outcome) :
    (collectInspections outs).2.isSome = outs.any Outcome.isRejected := by
  induction outs with
  | nil => rfl
  | cons o rest ih =>
    cases o with
    | fulfilled r => simp [collectInspections, Outcome.isRejected, ih]
    | rejected e =>
      simp only [collectInspections, Outcome.isRejected, List.any_cons, Bool.true_or]
      cases (collectInspections rest).2 <;> rfl

theorem filterMap_value_nil (outs : List Outcome) :
    outs.filterMap Outcome.value? = [] ↔ ∀ o ∈ outs, o.isRejected = true := by
  induction outs with
  | nil => simp
  | cons o rest ih =>
    cases o with
    | fulfilled r => simp [Outcome.value?, Outcome.isRejected]
    | rejected e => simp [Outcome.value?, Outcome.isRejected, ih]

theorem filterMap_of_map_some {α β : Type} (f : α → Option β) :
    ∀ (l : List α) (outs : List β), l.map f = outs.map some → l.filterMap f = outs := by
  intro l
  induction l with
  | nil =>
    intro outs h
    cases outs with
    | nil => rfl
    | cons o rest => simp at h
  | cons a rest ih =>
    intro outs h
    cases outs with
    | nil => simp at h
    | cons o more =>
      simp only [List.map_cons, List.cons.injEq] at h
      simp [List.filterMap_cons, h.1, ih more h.2]

theorem getByIdEach_length (T : String) (params : Value) (ids : List Value) :
    ∀ s : Connector, (getByIdEach T params ids s).1.length = ids.length := by
  induction ids with
  | nil =>
    intro s
    rfl
  | cons id rest ih =>
    intro s
    simp [getByIdEach, ih]

/-- C12. For a non-empty list of ids and params without `fields`, `getByIds`
returns the promise of a callback that waits for the `getById` lookups of the
ids, in the order of the ids.  Given the outcome of each lookup, that callback
returns the array of the values of the fulfilled lookups, in that order and
without the failed ones, whenever at least one lookup is fulfilled; it throws
(so the promise of `getByIds` rejects) if and only if every lookup is rejected. -/
theorem getByIds_outcome (s : Connector) (T : String) (ids : List Value) (params : Value)
    (hne : ids ≠ []) (hp : wantsFields params = false) :
    getByIds s T ids params
      = joinThen (getByIdEach T params ids s).2 (getByIdEach T params ids s).1
          (.getByIdsCollect (getByIdEach T params ids s).1) ∧
    (getByIdEach T params ids s).1.length = ids.length ∧
    ∀ (st : Connector) (o : JsVal) (outs : List Outcome),
      (getByIdEach T params ids s).1.map st.outcomeOf = outs.map some →
      (runCallback st (.getByIdsCollect (getByIdEach T params ids s).1) (.fulfilled o)).2 = st ∧
      ((∃ x ∈ outs, x.isRejected = false) →
        (runCallback st (.getByIdsCollect (getByIdEach T params ids s).1) (.fulfilled o)).1
          = .returned (.data (.arr (Values.ofList
              ((outs.filterMap Outcome.value?).map st.valueOf))))) ∧
      ((runCallback st (.getByIdsCollect (getByIdEach T params ids s).1)
          (.fulfilled o)).1.isThrown = true ↔ ∀ x ∈ outs, x.isRejected = true) := by
  have hlen := getByIdEach_length T params ids s
  refine ⟨?_, hlen, ?_⟩
  · have h0 : ids.length ≠ 0 := fun h => hne (List.length_eq_zero.1 h)
    simp [getByIds, h0, hp]
  · intro st o outs hout
    have hfm : (getByIdEach T params ids s).1.filterMap st.outcomeOf = outs :=
      filterMap_of_map_some _ _ _ hout
    have houts : outs ≠ [] := by
      intro h
      subst h
      have := congrArg List.length hout
      simp only [List.length_map, List.length_nil] at this
      rw [hlen] at this
      exact hne (List.length_eq_zero.1 this)
    simp only [runCallback, hfm, getByIdsResult]
    have hv := collectInspections_values outs
    have he := collectInspections_error outs
    rcases hc : collectInspections outs with ⟨vals, err⟩
    rw [hc] at hv he
    simp only at hv he
    subst hv
    refine ⟨trivial, ?_, ?_⟩
    · intro hex
      have hnn : outs.filterMap Outcome.value? ≠ [] := by
        intro h
        obtain ⟨x, hx, hxr⟩ := hex
        rw [(filterMap_value_nil outs).1 h x hx] at hxr
        exact absurd hxr (by simp)
      have hl : (outs.filterMap Outcome.value?).length ≠ 0 :=
        fun h => hnn (List.length_eq_zero.1 h)
      simp [hl]
    · constructor
      · intro hthrown
        by_cases hl : (outs.filterMap Outcome.value?).length = 0
        · exact (filterMap_value_nil outs).1 (List.length_eq_zero.1 hl)
        · simp [hl, CallbackResult.isThrown] at hthrown
      · intro hall
        have hnil := (filterMap_value_nil outs).2 hall
        have hany : outs.any Outcome.isRejected = true := by
          obtain ⟨x, rest, hxr⟩ := List.exists_cons_of_ne_nil houts
          subst hxr
          simp [hall x (List.mem_cons_self _ _)]
        rw [hany] at he
        obtain ⟨e, hee⟩ := Option.isSome_iff_exists.1 he
        simp [hnil, hee, CallbackResult.isThrown]

/-- Witness of C12: two ids on the caching connector, the first lookup
fulfilled and the second rejected. -/
theorem getByIds_outcome_witness :
    getByIds cachingConnector "Person" [.str sampleId, .str otherId] .undefined
      = joinThen (getByIdEach "Person" .undefined [.str sampleId, .str otherId] cachingConnector).2
          (getByIdEach "Person" .undefined [.str sampleId, .str otherId] cachingConnector).1
          (.getByIdsCollect
            (getByIdEach "Person" .undefined [.str sampleId, .str otherId] cachingConnector).1) :=
  (getByIds_outcome cachingConnector "Person" [.str sampleId, .str otherId] .undefined
    (by decide) (by decide)).1

/-! ## Direct requests -/

/-- C13 (amended). For every state and every valid id, `getById` with a truthy
`versionId` or with `params.fields` pushes exactly one task (`GET
<serviceUrl><T>.json/history/<id>/<versionId>` with a versionId, otherwise `GET
<serviceUrl><T>.json/crud/<id>`) and leaves the windows, the armed-flush flag
and the caches unchanged; `getByIds` with `params.fields` and a non-empty list
of ids pushes exactly one search task for `{_id: {$in: ids}}` and leaves the
windows and the caches unchanged. -/
theorem direct_requests (s : Connector) (T X : String) (ids : List Value)
    (params versionId : Value) (hX : jsLength X = 24) (hids : ids ≠ []) :
    ((versionId.truthy = true ∨ wantsFields params = true) →
      getById s T (.str X) params versionId
        = (.promise s.promiseCount,
            { s with
              promiseCount := s.promiseCount + 1
              queue := s.queue ++
                [{ deferred := s.promiseCount
                   url := s.serviceUrl ++ T ++ ".json/" ++
                     (if versionId.truthy then "history/" ++ X ++ "/" ++ versionId.toStr
                      else "crud/" ++ X)
                   method := "GET"
                   body := none
                   query := params }] })) ∧
    (wantsFields params = true →
      getByIds s T ids params
        = (.promise s.promiseCount,
            { s with
              promiseCount := s.promiseCount + 1
              queue := s.queue ++
                [{ deferred := s.promiseCount
                   url := s.serviceUrl ++ T ++ ".json/search"
                   method := "POST"
                   body := some (inSelector (.arr (Values.ofList ids)))
                   query := params }] })) := by
  constructor
  · intro h
    have hb : (versionId.truthy || wantsFields params) = true := by
      rcases h with h | h <;> simp [h]
    simp only [getById, validObjectId, hX, hb, if_true]
    rfl
  · intro h
    have h0 : ids.length ≠ 0 := fun e => hids (List.length_eq_zero.1 e)
    simp only [getByIds, h0, h, if_true, if_false]
    rfl

/-- Witness of C13 (amended). -/
theorem direct_requests_witness :
    (getById lookedUp "Person" (.str sampleId) fieldsParams .undefined).2.getByIdQueue
      = lookedUp.getByIdQueue ∧
    (getByIds lookedUp "Person" [.str sampleId] fieldsParams).2.queue.length
      = lookedUp.queue.length + 1 := by
  have h := direct_requests lookedUp "Person" sampleId [.str sampleId] fieldsParams .undefined
    (by decide) (by decide)
  constructor
  · rw [h.1 (Or.inr (by decide))]
  · rw [h.2 (by decide)]
    simp

/-- Counterexample to C13 as stated: `getByIds` with `params.fields` and an
empty list of ids pushes no task at all. -/
theorem getByIds_fields_empty_counterexample :
    wantsFields fieldsParams = true ∧
    getByIds plainConnector "Person" [] fieldsParams
      = (.resolvedWith (.data (.arr .nil)), plainConnector) ∧
    (getByIds plainConnector "Person" [] fieldsParams).2.queue = [] := by
  decide

/-! ## Dispatcher -/

theorem responseOutcome_not_error (status : Nat) (body : Value) (m : String) :
    (responseOutcome status body).1 ≠ .rejected (.error m) := by
  unfold responseOutcome
  split
  · split
    · split <;> simp
    · simp
  · split <;> rename_i h
    · unfold CommunibaseError at h
      split at h
      · cases h
        simp
      · cases h
    · simp

/-- C14. A task taken by the worker while the connector has neither key nor
token: its promise (still pending) is rejected with the `Missing key or token`
error, the worker callback is invoked once and no request is issued.  With a
key or a token the worker settles nothing and issues the request, and the
outcome computed from a response is never that error. -/
theorem worker_missing_key (s : Connector) (task : Task) :
    ((s.key.truthy = false ∧ s.token.truthy = false) →
      (s.outcome? task.deferred = none →
        (worker s task).outcome? task.deferred = some (.rejected (.error missingKeyMessage))) ∧
      (worker s task).workerCallbacks = s.workerCallbacks + 1 ∧
      (worker s task).running = s.running) ∧
    ((s.key.truthy = true ∨ s.token.truthy = true) →
      (worker s task).settled = s.settled ∧
      (worker s task).workerCallbacks = s.workerCallbacks ∧
      (∃ req, (worker s task).running = s.running ++ [req] ∧ req.task = task) ∧
      ∀ status body, (responseOutcome status body).1 ≠ .rejected (.error missingKeyMessage)) := by
  constructor
  · intro h
    have hb : (!s.key.truthy && !s.token.truthy) = true := by simp [h.1, h.2]
    unfold worker
    rw [hb]
    refine ⟨?_, rfl, ?_⟩
    · intro hpend
      show (settle s task.deferred _).outcome? task.deferred = _
      rw [settle_outcome, hpend]
      simp
    · exact (settle_frame s _ _).2.2.2.1
  · intro h
    have hb : (!s.key.truthy && !s.token.truthy) = false := by
      rcases h with h | h <;> simp [h]
    unfold worker
    rw [hb]
    exact ⟨rfl, rfl, ⟨_, rfl, rfl⟩, fun status body => responseOutcome_not_error status body _⟩

/-- Witness of C14: a connector without key, and the connector with a key. -/
theorem worker_missing_key_witness :
    (worker (Connector.create .undefined none none) (flushTask "u" "Person" 0 [])).running = [] ∧
    (worker plainConnector (flushTask "u" "Person" 0 [])).settled = plainConnector.settled :=
  ⟨((worker_missing_key (Connector.create .undefined none none)
      (flushTask "u" "Person" 0 [])).1 (by decide)).2.2,
   ((worker_missing_key plainConnector (flushTask "u" "Person" 0 [])).2
      (Or.inl (by decide))).1⟩

/-! ## Responses -/

/-- Outcome of a response whose body is neither `null` nor `undefined`: status
200 fulfils with `body.records` for an envelope with truthy `metadata` and
`records` (the metadata being attached) and with the body otherwise; any other
status rejects with a `CommunibaseError` built from the body with the defaults
`500`, `''` and `{}`. -/
theorem responseOutcome_of_body (status : Nat) (body : Value)
    (h1 : body ≠ .null) (h2 : body ≠ .undefined) :
    ∃ md records code message errors,
      body.prop? "metadata" = some md ∧ body.prop? "records" = some records ∧
      body.prop? "code" = some code ∧ body.prop? "message" = some message ∧
      body.prop? "errors" = some errors ∧
      responseOutcome status body =
        if status = 200 then
          if md.truthy && records.truthy then (.fulfilled (.data records), some md)
          else (.fulfilled (.data body), none)
        else
          (.rejected (.communibaseError (if code.truthy then code else .num 500)
            (if message.truthy then message else .str "")
            (if errors.truthy then errors else .obj .nil)), none) := by
  have hp : ∀ k, ∃ v, body.prop? k = some v := by
    intro k
    apply Option.isSome_iff_exists.1
    cases body with
    | undefined => exact absurd rfl h2
    | null => exact absurd rfl h1
    | bool b => rfl
    | num n => rfl
    | str s => by_cases hk : k = "length" <;> simp [Value.prop?, hk]
    | arr items =>
      by_cases hk : k = "length"
      · simp [Value.prop?, hk]
      · cases hi : arrayIndex? k <;> simp [Value.prop?, hk, hi]
    | obj ps => rfl
  obtain ⟨md, hmd⟩ := hp "metadata"
  obtain ⟨records, hrec⟩ := hp "records"
  obtain ⟨code, hcode⟩ := hp "code"
  obtain ⟨message, hmsg⟩ := hp "message"
  obtain ⟨errors, herr⟩ := hp "errors"
  refine ⟨md, records, code, message, errors, hmd, hrec, hcode, hmsg, herr, ?_⟩
  simp only [responseOutcome, hmd, hrec, CommunibaseError, hcode, hmsg, herr]

/-- C15, the code at the failing input: a response whose JSON body is `null`.
With status 200 the task is rejected with a TypeError (reading `metadata` of
`null`) instead of being resolved with the body; with another status it is
rejected with a TypeError instead of a `CommunibaseError` carrying the defaults. -/
theorem responseOutcome_null_body :
    responseOutcome 200 .null
      = (.rejected (.typeError "Cannot read property \x27metadata\x27 of null"), none) ∧
    responseOutcome 500 .null
      = (.rejected (.typeError "Cannot read property \x27code\x27 of null"), none) := by
  decide

/-! ## Failures and the caches -/

theorem finish_cache (s : Connector) (n : Nat) (r : CallbackResult) :
    (finish s n r).cache = s.cache := by
  cases r with
  | returned v => exact (settle_frame s n _).2.1
  | thrown e => exact (settle_frame s n _).2.1
  | chained c =>
    simp only [finish]
    split
    · exact (settle_frame s n _).2.1
    · rfl
    · rfl

/-- C16 (amended). Delivering the failure of a remote call writes nothing into
the caches: rejecting the promise of the task (directly, from a response of
any status, or from a transport error) leaves `this.cache`
as it was, and the callbacks of `getIds` and `aggregate` (the id mapping, the
two cache stores), run on a rejection, throw the same error again and leave the
whole state untouched, as does the settlement of their derived promises.  So a
failed `getIds` or `aggregate` puts no entry into the id-list or aggregate
cache. -/
theorem failure_writes_no_cache (s : Connector) (e : JsError) :
    (∀ n, (settle s n (.rejected e)).cache = s.cache) ∧
    (∀ req status body, (onResponse s req status body).cache = s.cache) ∧
    (∀ req, (onFetchError s req e).cache = s.cache) ∧
    runCallback s .getIdsMap (.rejected e) = (.thrown e, s) ∧
    (∀ T hash, runCallback s (.getIdsStore T hash) (.rejected e) = (.thrown e, s)) ∧
    (∀ T hash, runCallback s (.aggregateStore T hash) (.rejected e) = (.thrown e, s)) ∧
    (∀ n r, (finish s n r).cache = s.cache) := by
  refine ⟨fun n => (settle_frame s n _).2.1, ?_, ?_, rfl, fun _ _ => rfl, fun _ _ => rfl,
    fun n r => finish_cache s n r⟩
  · intro req status body
    simp only [onResponse]
    split
    · exact (settle_frame _ _ _).2.1
    · exact (settle_frame _ _ _).2.1
  · intro req
    exact (settle_frame s _ _).2.1

/-- Counterexample to C16 as stated: after the batched query of `getById` has
failed and the failure has been delivered, the object cache still holds the
(rejected) promise of the id, and an identical `getById` is answered with it,
without any change of state. -/
theorem failed_lookup_stays_cached_counterexample :
    failedLookup.outcome? 0
      = some (.rejected (.communibaseError (.num 500) (.str "") (.obj .nil))) ∧
    failedLookup.cached "Person" sampleId = some 0 ∧
    getById failedLookup "Person" (.str sampleId) .undefined .undefined
      = (.promise 0, failedLookup) := by
  decide

/-! ## Ids of a search -/

/-- C18, the code at the failing input: with the cache enabled, the first
`getId("Person", sampleSelector)` resolves with the id of the matching document,
and a second identical call, with no invalidation in between and without any
new remote call, resolves with `undefined`: `ids.pop()` of the first call has
emptied the array object that the id-list cache holds. -/
theorem getId_twice_differs :
    (getId 4 cachingConnector "Person" sampleSelector).map Prod.fst = some (.promise 3) ∧
    afterFirstGetId.outcome? 3 = some (.fulfilled (.data (.str sampleId))) ∧
    (getId 4 afterFirstGetId "Person" sampleSelector).map Prod.fst = some (.promise 4) ∧
    (stateAfter afterFirstGetId (getId 4 afterFirstGetId "Person" sampleSelector)).queue = [] ∧
    afterSecondGetId.outcome? 4 = some (.fulfilled (.data .undefined)) := by
  decide

/-! ## Aggregates -/

/-- C20, the code at the failing input: the remote aggregate call succeeds
(promise `0` of the task is fulfilled with the result), but a dirty message for
the same entity type handled while the call is in flight makes the promise
returned by `aggregate` (promise `1`) reject with a TypeError; without the dirty
message the same call resolves with the result. -/
theorem aggregate_dirty_in_flight :
    (aggregate cachingConnector "Event" samplePipeline).1 = .promise 1 ∧
    aggregateAfterDirty.outcome? 0
      = some (.fulfilled (.data (.arr (.cons (.obj (.cons "count" (.num 3) .nil)) .nil)))) ∧
    aggregateAfterDirty.outcome? 1
      = some (.rejected (.typeError "Cannot read property \x27set\x27 of null")) ∧
    aggregateUndisturbed.outcome? 1
      = some (.fulfilled (.data (.arr (.cons (.obj (.cons "count" (.num 3) .nil)) .nil)))) := by
  decide

/-! ## Nesting of `search`, `getIds` and `getAll` -/

theorem ensureLRU_empty (caches : JsObj (Option LRU)) (T : String)
    (h : ∀ lru, caches.get T = some (some lru) → lru.entries = []) :
    (ensureLRU caches T).2.entries = [] := by
  unfold ensureLRU
  split
  · rename_i lru heq
    exact h lru heq
  · rfl

theorem LRU.get_empty (l : LRU) (k : String) (h : l.entries = []) : l.get k = (none, l) := by
  simp [LRU.get, LRU.peek, h, JsObj.get]

/-- With the cache enabled, an empty id-list cache for the type and the
parameters `{ fields: '' }`, neither `search` nor `getIds` returns, whatever
bound is put on the depth of their nested calls. -/
theorem search_getIds_diverge (T : String) :
    ∀ (fuel : Nat) (s : Connector) (selector : Value), idsCacheEmpty s T →
      search fuel s T selector emptyFields = none ∧
      getIds fuel s T selector emptyFields = none := by
  intro fuel
  induction fuel with
  | zero =>
    intro s selector _
    exact ⟨rfl, rfl⟩
  | succ n ih =>
    intro s selector hs
    obtain ⟨c, hc, hempty⟩ := hs
    have hw : wantsFields emptyFields = false := by decide
    have hid : idParams emptyFields = emptyFields := by decide
    constructor
    · have h := (ih s selector ⟨c, hc, hempty⟩).2
      simp [search, hc, hw, h]
    · have hslot := ensureLRU_empty c.getIdsCaches T hempty
      have hget := LRU.get_empty (ensureLRU c.getIdsCaches T).2
        (queryHash [.str T, selector, emptyFields]) hslot
      have hnext : idsCacheEmpty
          { s with cache := some { c with
              getIdsCaches := (ensureLRU c.getIdsCaches T).1.set T
                (some (ensureLRU c.getIdsCaches T).2) } } T := by
        refine ⟨_, rfl, ?_⟩
        intro lru hl
        simp only [JsObj.get_set_same, Option.some.injEq] at hl
        rw [← hl]
        exact hslot
      have h := (ih _ selector hnext).1
      simp only [getIds, hc, hget, hid, Option.filter_none, h]

/-- C19, the code at the failing input: with the cache enabled and the
parameters `{ fields: '' }`, `search`, `getIds` and `getAll` return nothing
within any number of nested calls: `search` calls `getIds`, which calls `search`
with `Object.assign({ fields: '_id' }, params)`, whose `fields` is again `''`. -/
theorem search_never_returns (fuel : Nat) (selector : Value) :
    search fuel cachingConnector "Person" selector emptyFields = none ∧
    getIds fuel cachingConnector "Person" selector emptyFields = none ∧
    getAll fuel cachingConnector "Person" emptyFields = none := by
  have hs : ∀ sel n, search n cachingConnector "Person" sel emptyFields = none ∧
      getIds n cachingConnector "Person" sel emptyFields = none := by
    intro sel n
    apply search_getIds_diverge
    refine ⟨_, rfl, ?_⟩
    intro lru hl
    simp [JsObj.get] at hl
  refine ⟨(hs selector fuel).1, (hs selector fuel).2, ?_⟩
  cases fuel with
  | zero => rfl
  | succ n =>
    have hw : wantsFields emptyFields = false := by decide
    have h := (hs (.obj .nil) n).1
    simp [getAll, cachingConnector, enableCache, hw]
    exact h

/-! ## References -/

theorem prop_id_is_object (v : Value) (id : String) (h : v.prop? "_id" = some (.str id)) :
    v.truthy = true := by
  cases v with
  | undefined => simp [Value.prop?] at h
  | null => simp [Value.prop?] at h
  | bool b => simp [Value.prop?] at h
  | num n => simp [Value.prop?] at h
  | str s => simp [Value.prop?] at h
  | arr items => rfl
  | obj ps => rfl

theorem strictEq_str (i : Value) (id : String) : i.strictEq (.str id) = true ↔ i = .str id := by
  cases i <;> simp [Value.strictEq]

theorem prop_some_of_ne (x : Value) (k : String) (h1 : x ≠ .null) (h2 : x ≠ .undefined) :
    ∃ v, x.prop? k = some v := by
  apply Option.isSome_iff_exists.1
  cases x with
  | undefined => exact absurd rfl h2
  | null => exact absurd rfl h1
  | bool b => rfl
  | num n => rfl
  | str s => by_cases hk : k = "length" <;> simp [Value.prop?, hk]
  | arr items =>
    by_cases hk : k = "length"
    · simp [Value.prop?, hk]
    · cases hi : arrayIndex? k <;> simp [Value.prop?, hk, hi]
  | obj ps => rfl

theorem findSubDocument_eq (id : String) (items : List Value)
    (h : ∀ x ∈ items, x ≠ .null ∧ x ≠ .undefined) :
    findSubDocument (.str id) items
      = .ok (items.find? (fun sub => decide (sub.prop? "_id" = some (.str id)))) := by
  induction items with
  | nil => rfl
  | cons x rest ih =>
    obtain ⟨hn, hu⟩ := h x (List.mem_cons_self _ _)
    obtain ⟨v, hv⟩ := prop_some_of_ne x "_id" hn hu
    have ih2 := ih (fun y hy => h y (List.mem_cons_of_mem _ hy))
    by_cases hm : v = .str id
    · subst hm
      simp [findSubDocument, hv, Value.strictEq, List.find?_cons]
    · have hs : v.strictEq (.str id) = false := by
        cases hb : v.strictEq (.str id) with
        | false => rfl
        | true => exact absurd ((strictEq_str v id).1 hb) hm
      simp [findSubDocument, hv, hs, ih2, List.find?_cons, hm]

theorem walkPath_eq (steps : List (String × String)) :
    ∀ doc : Value, PathShaped steps doc →
      walkPath (steps.map pathStep) doc = .ok ((followPath steps doc).getD .null) := by
  induction steps with
  | nil =>
    intro doc _
    rfl
  | cons step rest ih =>
    intro doc hshape
    have hf : (pathStep step).prop? "field" = some (.str step.1) := rfl
    have ho : (pathStep step).prop? "objectId" = some (.str step.2) := rfl
    cases doc with
    | undefined => simp [PathShaped] at hshape
    | null => simp [PathShaped] at hshape
    | bool b => simp [PathShaped] at hshape
    | num n => simp [PathShaped] at hshape
    | str x => simp [PathShaped] at hshape
    | arr items => simp [PathShaped] at hshape
    | obj ps =>
      simp only [PathShaped] at hshape
      have hp : (Value.obj ps).prop? step.1 = some ((ps.get? step.1).getD .undefined) := rfl
      simp only [List.map_cons, walkPath, hf, ho, Value.toStr, followPath, hp]
      cases hown : ps.get? step.1 with
      | none =>
        simp only [hown] at hshape
        have hb : (Value.obj ps).builtinMember step.1 = false := by
          simp [Value.builtinMember, hown, hshape]
        simp [selectStep, hp, hown, hb, Value.truthy]
      | some v =>
        have hb : (Value.obj ps).builtinMember step.1 = false := by
          simp [Value.builtinMember, hown]
        cases v with
        | arr items =>
          simp only [hown] at hshape
          obtain ⟨hitems, hrest⟩ := hshape
          have hsel : selectStep step.1 step.2 (.obj ps)
              = items.toList.find? (fun sub => decide (sub.prop? "_id" = some (.str step.2))) := by
            simp [selectStep, hp, hown]
          simp only [Option.getD_some]
          rw [findSubDocument_eq step.2 items.toList hitems, ← hsel]
          cases hfound : selectStep step.1 step.2 (.obj ps) with
          | none => rfl
          | some sub =>
            simp only [Option.bind_some]
            exact ih sub (hrest sub hfound)
        | undefined => simp [selectStep, hp, hown, hb, Value.truthy]
        | null => simp [selectStep, hp, hown, hb, Value.truthy]
        | bool b =>
          simp only [hown] at hshape
          simp [selectStep, hp, hown, hb, hshape]
        | num n =>
          simp only [hown] at hshape
          simp [selectStep, hp, hown, hb, hshape]
        | str x =>
          simp only [hown] at hshape
          simp [selectStep, hp, hown, hb, hshape]
        | obj qs =>
          simp only [hown] at hshape
          simp [Value.truthy] at hshape

theorem followPath_found (steps : List (String × String)) :
    ∀ (doc sub : Value), steps ≠ [] → followPath steps doc = some sub → sub.truthy = true := by
  induction steps with
  | nil =>
    intro doc sub h
    exact absurd rfl h
  | cons step rest ih =>
    intro doc sub _ hfol
    simp only [followPath] at hfol
    cases hsel : selectStep step.1 step.2 doc with
    | none => simp [hsel] at hfol
    | some mid =>
      simp only [hsel, Option.bind_some] at hfol
      by_cases hr : rest = []
      · subst hr
        have hms : mid = sub := by simpa [followPath] using hfol
        subst hms
        unfold selectStep at hsel
        split at hsel
        · have := List.find?_some hsel
          simp only [decide_eq_true_eq] at this
          exact prop_id_is_object _ _ this
        · cases hsel
      · exact ih mid sub hr hfol

theorem getByRefResult_eq (steps : List (String × String)) (doc : Value)
    (hne : steps ≠ []) (hshape : PathShaped steps doc) :
    getByRefResult (.arr (Values.ofList (steps.map pathStep))) doc
      = refOutcome (followPath steps doc) := by
  simp only [getByRefResult, Values.toList_ofList, walkPath_eq steps doc hshape]
  cases hfol : followPath steps doc with
  | none => rfl
  | some sub => simp [followPath_found steps doc sub hne hfol, refOutcome]

theorem truthy_of_prop_str (v : Value) (k x : String) (h : v.prop? k = some (.str x)) :
    v.truthy = true := by
  cases v with
  | undefined => simp [Value.prop?] at h
  | null => simp [Value.prop?] at h
  | bool b => simp [Value.prop?] at h
  | num n => simp [Value.prop?] at h
  | str s => by_cases hk : k = "length" <;> simp [Value.prop?, hk] at h
  | arr items => rfl
  | obj ps => rfl

theorem getByRef_typed (s : Connector) (ref parentDocument : Value) (t : String)
    (hT : ref.prop? "rootDocumentEntityType" = some (.str t)) (ht : t ≠ "")
    (hid : ((ref.prop? "rootDocumentId").getD .undefined).truthy = true ∨
      parentDocument.truthy = true) :
    getByRef s ref parentDocument =
      if !(((ref.prop? "path").getD .undefined).truthy &&
          ((((ref.prop? "path").getD .undefined).prop? "length").getD .undefined).truthy &&
          ((((ref.prop? "path").getD .undefined).prop? "length").getD .undefined).gtZero) then
        .ok (parentPromise s t ((ref.prop? "rootDocumentId").getD .undefined) parentDocument)
      else
        .ok (thenOn (parentPromise s t ((ref.prop? "rootDocumentId").getD .undefined)
            parentDocument).2
          (parentPromise s t ((ref.prop? "rootDocumentId").getD .undefined) parentDocument).1
          (.getByRefWalk ((ref.prop? "path").getD .undefined))) := by
  have hr : ref.truthy = true := truthy_of_prop_str ref _ t hT
  have htt : (Value.str t).truthy = true := by simp [Value.truthy, ht]
  have hcond : (ref.truthy && (Value.str t).truthy &&
      (((ref.prop? "rootDocumentId").getD .undefined).truthy || parentDocument.truthy)) = true := by
    rcases hid with h | h <;> simp [hr, htt, h]
  simp only [getByRef, hT, Option.getD_some, hcond, Bool.not_true, Bool.false_eq_true, if_false,
    parentPromise]

/-- C17 (amended). For a reference whose `rootDocumentEntityType` is a
non-empty string and that has a `rootDocumentId` or comes with a
`parentDocument`: with an empty path `getByRef` returns the promise of the
parent document itself (the given document for a `parent` reference, the
`getById` lookup otherwise); with a non-empty path it returns the promise of a
callback on that parent promise which, for every parent document of the shape
the path assumes (`PathShaped`: object documents whose fields named by the
steps are arrays without `null` elements, or falsy, or missing and not inherited
from `Object.prototype`), returns the sub-document reached by following the
steps in order (each step: the first element of the array under `field` whose
`_id` equals `objectId`) and throws `The referred object within it's parent
could not be found` exactly when some step finds no such element.  A reference without `rootDocumentEntityType`, or
with neither `rootDocumentId` nor `parentDocument`, is rejected without any
lookup (the state is unchanged), and a reference without `path` returns the
parent promise. -/
theorem getByRef_spec (s : Connector) (ref parentDocument : Value) (t : String)
    (steps : List (String × String))
    (hT : ref.prop? "rootDocumentEntityType" = some (.str t)) (ht : t ≠ "")
    (hid : ((ref.prop? "rootDocumentId").getD .undefined).truthy = true ∨
      parentDocument.truthy = true)
    (hpath : ref.prop? "path" = some (.arr (Values.ofList (steps.map pathStep)))) :
    (steps = [] → getByRef s ref parentDocument
      = .ok (parentPromise s t ((ref.prop? "rootDocumentId").getD .undefined) parentDocument)) ∧
    (steps ≠ [] →
      getByRef s ref parentDocument
        = .ok (thenOn
            (parentPromise s t ((ref.prop? "rootDocumentId").getD .undefined) parentDocument).2
            (parentPromise s t ((ref.prop? "rootDocumentId").getD .undefined) parentDocument).1
            (.getByRefWalk (.arr (Values.ofList (steps.map pathStep))))) ∧
      ∀ (st : Connector) (doc : Value), PathShaped steps doc →
        runCallback st (.getByRefWalk (.arr (Values.ofList (steps.map pathStep))))
            (.fulfilled (.data doc))
          = (refOutcome (followPath steps doc), st)) ∧
    (∀ ref2 parent2 : Value,
      (((ref2.prop? "rootDocumentEntityType").getD .undefined).truthy = false ∨
        (((ref2.prop? "rootDocumentId").getD .undefined).truthy = false ∧
          parent2.truthy = false)) →
      getByRef s ref2 parent2
        = .ok (.rejectedWith
            (.error "Please provide a documentReference object with a type and id"), s)) ∧
    (∀ (ref3 parent3 : Value) (t3 : String),
      ref3.prop? "rootDocumentEntityType" = some (.str t3) → t3 ≠ "" →
      (((ref3.prop? "rootDocumentId").getD .undefined).truthy = true ∨ parent3.truthy = true) →
      ((ref3.prop? "path").getD .undefined).truthy = false →
      getByRef s ref3 parent3
        = .ok (parentPromise s t3 ((ref3.prop? "rootDocumentId").getD .undefined) parent3)) := by
  have htyped := getByRef_typed s ref parentDocument t hT ht hid
  rw [hpath, Option.getD_some] at htyped
  have hlen : (Value.arr (Values.ofList (steps.map pathStep))).prop? "length"
      = some (.num (steps.length : Nat)) := by
    simp [Value.prop?, Values.toList_ofList]
  rw [hlen, Option.getD_some] at htyped
  refine ⟨?_, ?_, ?_, ?_⟩
  · intro he
    subst he
    rw [htyped]
    rfl
  · intro hne
    have hpos : 0 < steps.length := List.length_pos.2 hne
    have h1 : (Value.num (steps.length : Nat)).truthy = true := by
      simp only [Value.truthy, bne_iff_ne, ne_eq]
      omega
    have h2 : (Value.num (steps.length : Nat)).gtZero = true := by
      simp only [Value.gtZero, decide_eq_true_eq]
      omega
    refine ⟨?_, ?_⟩
    · rw [htyped, h1, h2]
      rfl
    · intro st doc hshape
      simp only [runCallback, Connector.valueOf, getByRefResult_eq steps doc hne hshape]
  · intro ref2 parent2 h
    have hcond : (ref2.truthy && ((ref2.prop? "rootDocumentEntityType").getD .undefined).truthy &&
        (((ref2.prop? "rootDocumentId").getD .undefined).truthy || parent2.truthy)) = false := by
      rcases h with h | ⟨h1, h2⟩
      · simp [h]
      · simp [h1, h2]
    simp only [getByRef, hcond, Bool.not_false, if_true]
  · intro ref3 parent3 t3 h1 h2 h3 h4
    rw [getByRef_typed s ref3 parent3 t3 h1 h2 h3, h4]
    rfl

/-- Witness of C17 (amended): a `parent` reference into `samplePerson`, to an
address that exists. -/
theorem getByRef_spec_witness :
    PathShaped [("addresses", "a2")] samplePerson ∧
    runCallback plainConnector
        (.getByRefWalk (.arr (Values.ofList ([("addresses", "a2")].map pathStep))))
        (.fulfilled (.data samplePerson))
      = (refOutcome (followPath [("addresses", "a2")] samplePerson), plainConnector) := by
  have hshape : PathShaped [("addresses", "a2")] samplePerson := by
    simp [PathShaped, samplePerson, Value.prop?, Props.get?, Values.toList]
  exact ⟨hshape,
    ((getByRef_spec plainConnector (sampleRef [("addresses", "a2")]) samplePerson "parent"
      [("addresses", "a2")] rfl (by decide) (Or.inr rfl) rfl).2.1 (by decide)).2
      plainConnector samplePerson hshape⟩

/-- Counterexample to C17 as stated, on three parent documents.  In
`samplePerson` the field `constructor` is missing, so the step finds no element,
but `result['constructor']` is the inherited function and the promise of
`getByRef` rejects with a TypeError, not with the not-found error.  In
`oddPerson` the field `addresses` holds a string: again no element is found and
the promise rejects with a TypeError.  In `sparsePerson` the array holds `null`
before the element with the requested `_id`: that element exists, yet the
promise rejects with the TypeError of reading `_id` of `null`.  For comparison,
on `samplePerson` the address `a2` is found and the address `a9` gives the
not-found error. -/
theorem getByRef_malformed_counterexample :
    followPath [("constructor", "a1")] samplePerson = none ∧
    settledRef plainConnector (sampleRef [("constructor", "a1")]) samplePerson
      = some (.rejected (.typeError "result[pathNibble.field].some is not a function")) ∧
    followPath [("addresses", "a1")] oddPerson = none ∧
    settledRef plainConnector (sampleRef [("addresses", "a1")]) oddPerson
      = some (.rejected (.typeError "result[pathNibble.field].some is not a function")) ∧
    (followPath [("addresses", "a1")] sparsePerson).isSome = true ∧
    settledRef plainConnector (sampleRef [("addresses", "a1")]) sparsePerson
      = some (.rejected (.typeError "Cannot read property \x27_id\x27 of null")) ∧
    settledRef plainConnector (sampleRef [("addresses", "a2")]) samplePerson
      = some (.fulfilled (.data
          (.obj (.cons "_id" (.str "a2") (.cons "city" (.str "Breda") .nil))))) ∧
    settledRef plainConnector (sampleRef [("addresses", "a9")]) samplePerson
      = some (.rejected notFoundError) := by
  decide

/-! ## Nesting of `search`, `getIds` and `getAll` for ordinary parameters -/

/-- A search that does not go through the id-list cache pushes one task. -/
theorem search_direct (n : Nat) (s : Connector) (T : String) (selector params : Value)
    (h : (s.cache.isSome && !wantsFields params) = false) :
    ∃ r t, search (n + 2) s T selector params = some r ∧ r.2.queue = s.queue ++ [t] ∧
      r.2.cache = s.cache := by
  by_cases hsel : selectorGiven selector = true
  · exact ⟨_, _, by simp only [search, h, hsel, if_true, Bool.false_eq_true, if_false]; rfl,
      rfl, rfl⟩
  · exact ⟨_, _, by
      simp only [search, getAll, h, hsel, Bool.false_eq_true, if_false]
      rfl, rfl, rfl⟩

/-- When `Object.assign({ fields: '_id' }, params)` keeps a truthy `fields`
(every `params` without an own falsy `fields` key), `getIds` returns within
three nested calls and pushes at most one task. -/
theorem getIds_returns (n : Nat) (s : Connector) (T : String) (selector params : Value)
    (h : wantsFields (idParams params) = true) :
    ∃ r, getIds (n + 3) s T selector params = some r ∧
      (r.2.queue = s.queue ∨ ∃ t, r.2.queue = s.queue ++ [t]) := by
  have hlooked : ∀ st : Connector, (st.cache.isSome && !wantsFields (idParams params)) = false := by
    intro st
    simp [h]
  cases hc : s.cache with
  | none =>
    obtain ⟨r1, t, hr1, hq1, hc1⟩ := search_direct n s T selector (idParams params) (hlooked s)
    refine ⟨thenOn r1.2 r1.1 .getIdsMap, ?_, Or.inr ⟨t, ?_⟩⟩
    · have hcn : (thenOn r1.2 r1.1 Callback.getIdsMap).2.cache.isSome = false := by
        rw [(thenOn_frame _ _ _).2.2.2.1, hc1, hc]
        rfl
      simp only [getIds, hc, Option.filter_none, hr1, hcn, Bool.false_eq_true, if_false]
    · rw [(thenOn_frame _ _ _).1, hq1]
  | some c =>
    cases hhit : ((ensureLRU c.getIdsCaches T).2.get
        (queryHash [.str T, selector, params])).1.filter JsVal.truthy with
    | some result =>
      refine ⟨(.resolvedWith result,
        { s with cache := some { c with
            getIdsCaches := (ensureLRU c.getIdsCaches T).1.set T
              (some ((ensureLRU c.getIdsCaches T).2.get
                (queryHash [.str T, selector, params])).2) } }), ?_, Or.inl rfl⟩
      simp only [getIds, hc, hhit]
    | none =>
      obtain ⟨r1, t, hr1, hq1, hc1⟩ := search_direct n
        { s with cache := some { c with
            getIdsCaches := (ensureLRU c.getIdsCaches T).1.set T
              (some ((ensureLRU c.getIdsCaches T).2.get
                (queryHash [.str T, selector, params])).2) } }
        T selector (idParams params) (hlooked _)
      have hcs : (thenOn r1.2 r1.1 Callback.getIdsMap).2.cache.isSome = true := by
        rw [(thenOn_frame _ _ _).2.2.2.1, hc1]
        rfl
      refine ⟨((thenOn r1.2 r1.1 .getIdsMap).1,
        (thenOn (thenOn r1.2 r1.1 .getIdsMap).2 (thenOn r1.2 r1.1 .getIdsMap).1
          (.getIdsStore T (queryHash [.str T, selector, params]))).2), ?_, Or.inr ⟨t, ?_⟩⟩
      · simp only [getIds, hc, hhit, hr1, hcs, if_true]
      · rw [(thenOn_frame _ _ _).1, (thenOn_frame _ _ _).1, hq1]

/-- Under the same condition `search` returns within four nested calls and
`getAll` within five, each pushing at most one task before it returns. -/
theorem search_returns (s : Connector) (T : String) (selector params : Value)
    (h : wantsFields (idParams params) = true) :
    (∃ r, search 4 s T selector params = some r ∧
      (r.2.queue = s.queue ∨ ∃ t, r.2.queue = s.queue ++ [t])) ∧
    (∃ r, getAll 5 s T params = some r ∧
      (r.2.queue = s.queue ∨ ∃ t, r.2.queue = s.queue ++ [t])) := by
  have hsearch : ∀ sel, ∃ r, search 4 s T sel params = some r ∧
      (r.2.queue = s.queue ∨ ∃ t, r.2.queue = s.queue ++ [t]) := by
    intro sel
    by_cases hcond : (s.cache.isSome && !wantsFields params) = true
    · obtain ⟨r1, hr1, hq1⟩ := getIds_returns 0 s T sel params h
      refine ⟨thenOn r1.2 r1.1 (.searchGetByIds T), ?_, ?_⟩
      · simp only [search, hcond, if_true, hr1]
      · rw [(thenOn_frame _ _ _).1]
        exact hq1
    · obtain ⟨r, t, hr, hq, _⟩ := search_direct 2 s T sel params (by simpa using hcond)
      exact ⟨r, hr, Or.inr ⟨t, hq⟩⟩
  refine ⟨hsearch selector, ?_⟩
  by_cases hcond : (s.cache.isSome && !wantsFields params) = true
  · obtain ⟨r, hr, hq⟩ := hsearch (.obj .nil)
    exact ⟨r, by simp only [getAll, hcond, if_true, hr], hq⟩
  · exact ⟨_, by simp only [getAll, hcond, if_false]; rfl, Or.inr ⟨_, rfl⟩⟩

/-! ## What a flush submits -/

theorem spoolOne_window (st : Connector) (K S : String) :
    (spoolOne st K).getByIdQueue.get S
      = if K = S ∧ (st.getByIdQueue.get S).isSome then some [] else st.getByIdQueue.get S := by
  cases hK : st.getByIdQueue.get K with
  | none =>
    rw [spoolOne_none st K hK]
    by_cases h : K = S
    · subst h
      simp [hK]
    · simp [h]
  | some w =>
    rw [(spoolOne_some st K w hK).2.1]
    by_cases h : K = S
    · subst h
      simp [hK, JsObj.get_set_same]
    · simp [h, JsObj.get_set_other _ _ _ _ h]

/-- After the `forEach` of `spoolQueue` over a list of entity types, the window
of each listed type is empty and the other windows are what they were. -/
theorem spool_fold_windows (ks : List String) :
    ∀ (st : Connector) (S : String),
      (ks.foldl spoolOne st).getByIdQueue.get S
        = if S ∈ ks ∧ (st.getByIdQueue.get S).isSome then some [] else st.getByIdQueue.get S := by
  induction ks with
  | nil =>
    intro st S
    simp
  | cons K rest ih =>
    intro st S
    simp only [List.foldl_cons]
    rw [ih (spoolOne st K) S, spoolOne_window st K S]
    by_cases hK : K = S
    · subst hK
      cases hs : st.getByIdQueue.get K <;> simp [hs]
    · have hSK : ¬ S = K := fun e => hK e.symm
      simp [hK, hSK]

/-- The `forEach` of `spoolQueue` pushes one search task for every listed type
that has a window, whether or not the window holds a lookup. -/
theorem spool_fold_length (ks : List String) :
    ∀ st : Connector, (∀ K ∈ ks, (st.getByIdQueue.get K).isSome) →
      (ks.foldl spoolOne st).queue.length = st.queue.length + ks.length := by
  induction ks with
  | nil =>
    intro st _
    rfl
  | cons K rest ih =>
    intro st hall
    simp only [List.foldl_cons]
    obtain ⟨w, hw⟩ := Option.isSome_iff_exists.1 (hall K (List.mem_cons_self _ _))
    rw [ih (spoolOne st K) (fun K2 hK2 => by
      rw [spoolOne_window st K K2]
      have := hall K2 (List.mem_cons_of_mem _ hK2)
      by_cases h : K = K2
      · simp [h, this]
      · simp [h, this])]
    rw [(spoolOne_some st K w hw).1]
    simp
    omega

/-- What `spoolQueue` does in every state: it pushes one search task per
entity type that has a window (one per key of `getByIdQueue`, an emptied window
included); afterwards every window is empty and the armed-flush flag is cleared. -/
theorem spoolQueue_effect (s : Connector) :
    (spoolQueue s).queue.length = s.queue.length + s.getByIdQueue.jsKeys.length ∧
    (∀ S w, (spoolQueue s).getByIdQueue.get S = some w → w = []) ∧
    (spoolQueue s).getByIdPrimed = false := by
  refine ⟨?_, ?_, rfl⟩
  · exact spool_fold_length _ s (fun K hK => (JsObj.mem_jsKeys _ K).1 hK)
  · intro S w hw
    have h := spool_fold_windows s.getByIdQueue.jsKeys s S
    have hw2 : (s.getByIdQueue.jsKeys.foldl spoolOne s).getByIdQueue.get S = some w := hw
    rw [h] at hw2
    by_cases hs : (s.getByIdQueue.get S).isSome
    · have hmem : S ∈ s.getByIdQueue.jsKeys := (JsObj.mem_jsKeys _ S).2 hs
      simp [hmem, hs] at hw2
      exact hw2
    · simp [hs] at hw2
      rw [hw2] at hs
      simp at hs

/-- C21, the code at the failing input.  In the state `flushed` the window of
`Person` was emptied by the first flush, so no entity type has a non-empty
window, and `spoolQueue` still pushes a search of `Person` with an empty `$in`
list.  After a lookup of a `Company` id (one non-empty window) the next flush
pushes two search tasks, the one of `Person` again with an empty `$in` list.
Afterwards every window is empty and the armed-flush flag is cleared. -/
theorem spoolQueue_empty_window :
    nonEmptyWindows flushed = 0 ∧
    (spoolQueue flushed).queue
      = flushed.queue ++ [flushTask flushed.serviceUrl "Person" 3 []] ∧
    nonEmptyWindows secondLookup = 1 ∧ secondLookup.scheduledFlushes = 1 ∧
    secondRound.queue = secondLookup.queue ++
      [flushTask secondLookup.serviceUrl "Person" 4 [],
       flushTask secondLookup.serviceUrl "Company" 6 [otherId]] ∧
    secondRound.getByIdQueue = [("Person", []), ("Company", [])] ∧
    secondRound.getByIdPrimed = false := by
  decide

end Communibase
